import Mathlib

/-!
# sftp-uploader: staged move and upload orchestration

A shallow embedding of `sftpuploader.go`.  Go strings are Lean strings
(compared element by element, as Go compares bytes), Go `error` values are
`Option Err` (`none` is `nil`), and every function that touches the operating
system or the network passes a `World` explicitly.  Several path strings can
name one file; the world says which file a path string names.
`filepath.Join` is the one of a Unix build.
-/

namespace SftpUploader

/-! ## Data model -/

/-- Go `error` values that the program can observe, named after the library
call that produced them.  `wrapf` is `errors.Wrapf` applied to a non-nil error. -/
inductive Err where
  | osOpen
  | osCreate
  | ioCopy
  | close
  | osRemove
  | sshDial
  | sftpNewClient
  | sftpCreate
  | wrapf (cause : Err)
  deriving DecidableEq, Repr

/-- The fields of `os.FileInfo` that `main` reads: `Name()` and `IsDir()`. -/
structure FileInfo where
  Name : String
  IsDir : Bool
  deriving DecidableEq, Repr

/-- Config holds data about configuration information (lines 162-175). -/
structure Config where
  Title : String
  User : String
  Password : String
  Server : String
  CollectionFolder : String
  FileNameFilter : List String
  ProcessingFolder : String
  DoneFolder : String
  RemoteSftpPath : String
  LogFile : String
  ConnectRetry : Int
  RetryInterval : Int

/-- Ghost record of the calls `main` makes, with the value each call returned.
It is bookkeeping for the theorems and is never read by the program. -/
inductive Event where
  | moveToDest (src dst : String) (err : Option Err)
  | sftpUpload (dstPath file : String) (err : Option Err)
  | sshDial (err : Option Err)
  | sftpNewClient (err : Option Err)
  deriving DecidableEq, Repr

/-- The environment of a run.

* `file p`: the local file that the path string `p` names, given by one
  canonical name, once the working directory, `.`, `..`, repeated separators
  and links are resolved.  Two path strings name the same file exactly when
  `file` agrees on them (as for `c/a` and `./c/a`, for a relative and an
  absolute spelling, or for a path through a link).  The program never
  changes which file a path string names.
* `fs f`: the bytes of the local file with canonical name `f`, `none` when
  there is no such file.
* `remote`: the contents of the remote files, by remote path.
* `fault k`: whether the `k`-th file or stream call (open, create, copy,
  close, remove; local or remote) is made to fail; `cut k` is the number of
  bytes an interrupted copy had already written.  `ticks` counts those calls.
* `dialFault k`, `clientFault k`: whether the `k`-th `ssh.Dial`, respectively
  the `k`-th `sftp.NewClient`, fails; `dials` and `clients` count the calls.
* `trace`: the ghost record of calls.

Log output is not part of the model. -/
structure World where
  file : String → String
  fs : String → Option (List Nat)
  remote : String → Option (List Nat)
  fault : Nat → Bool
  cut : Nat → Nat
  ticks : Nat
  dialFault : Nat → Bool
  dials : Nat
  clientFault : Nat → Bool
  clients : Nat
  trace : List Event

/-- The bytes of the local file that the path string `path` names. -/
def World.read (w : World) (path : String) : Option (List Nat) :=
  w.fs (w.file path)

/-! ## Library calls -/

/-- The result of `os.Open(path)`: fails when the call is faulted or the path
names no file.  The handle stands for the file the path names. -/
def osOpen (path : String) (w : World) : Option Err × World :=
  let w1 := { w with ticks := w.ticks + 1 }
  if w.fault w.ticks then (some Err.osOpen, w1)
  else match w.fs (w.file path) with
    | none => (some Err.osOpen, w1)
    | some _ => (none, w1)

/-- The result of `os.Create(path)`: creates the file that the path names, or
truncates it, under whatever other path it is also known. -/
def osCreate (path : String) (w : World) : Option Err × World :=
  let w1 := { w with ticks := w.ticks + 1 }
  if w.fault w.ticks then (some Err.osCreate, w1)
  else (none, { w1 with fs := fun f => if f = w.file path then some [] else w.fs f })

/-- The result of `io.Copy(d, s)` between two local files, `d` freshly
created: the bytes that the file of `s` holds at that moment reach the file
of `d`, or only the first `cut` of them when the copy is interrupted. -/
def ioCopy (d s : String) (w : World) : Option Err × World :=
  let w1 := { w with ticks := w.ticks + 1 }
  match w.fs (w.file s) with
  | none => (some Err.ioCopy, w1)
  | some bytes =>
    if w.fault w.ticks then
      (some Err.ioCopy,
        { w1 with
          fs := fun f => if f = w.file d then some (bytes.take (w.cut w.ticks)) else w.fs f })
    else (none, { w1 with fs := fun f => if f = w.file d then some bytes else w.fs f })

/-- The result of `Close()` on a file handle: it may report an error and
leaves the stored bytes as they are. -/
def fileClose (w : World) : Option Err × World :=
  let w1 := { w with ticks := w.ticks + 1 }
  if w.fault w.ticks then (some Err.close, w1) else (none, w1)

/-- The result of `os.Remove(path)`: the file that the path names is gone. -/
def osRemove (path : String) (w : World) : Option Err × World :=
  let w1 := { w with ticks := w.ticks + 1 }
  if w.fault w.ticks then (some Err.osRemove, w1)
  else match w.fs (w.file path) with
    | none => (some Err.osRemove, w1)
    | some _ => (none, { w1 with fs := fun f => if f = w.file path then none else w.fs f })

/-- The result of `sftpClient.Create(path)`: creates or truncates the remote file. -/
def sftpCreate (path : String) (w : World) : Option Err × World :=
  let w1 := { w with ticks := w.ticks + 1 }
  if w.fault w.ticks then (some Err.sftpCreate, w1)
  else (none, { w1 with remote := fun p => if p = path then some [] else w.remote p })

/-- The result of `io.Copy(sf, f)` from the local file `f` to the freshly
created remote file `sf`. -/
def ioCopyRemote (sf f : String) (w : World) : Option Err × World :=
  let w1 := { w with ticks := w.ticks + 1 }
  match w.fs (w.file f) with
  | none => (some Err.ioCopy, w1)
  | some bytes =>
    if w.fault w.ticks then
      (some Err.ioCopy,
        { w1 with remote := fun p => if p = sf then some (bytes.take (w.cut w.ticks)) else w.remote p })
    else (none, { w1 with remote := fun p => if p = sf then some bytes else w.remote p })

/-- The result of `ssh.Dial("tcp", addr, sshConf)`, where `sshConf` carries
the user and the password; the outcome is the world's to decide. -/
def sshDial (_addr _user _password : String) (w : World) : Option Err × World :=
  let r := if w.dialFault w.dials then some Err.sshDial else none
  (r, { w with dials := w.dials + 1, trace := w.trace ++ [Event.sshDial r] })

/-- The result of `sftp.NewClient(sshCon)`. -/
def sftpNewClient (w : World) : Option Err × World :=
  let r := if w.clientFault w.clients then some Err.sftpNewClient else none
  (r, { w with clients := w.clients + 1, trace := w.trace ++ [Event.sftpNewClient r] })

/-- First position at which `substr` occurs in `s`, counted from `i`, or `-1`. -/
def indexFrom (substr : List Char) : List Char → Nat → Int
  | [], i => if substr = [] then (i : Int) else -1
  | c :: s, i => if substr.isPrefixOf (c :: s) then (i : Int) else indexFrom substr s (i + 1)

/-- Go `strings.Index(s, substr)`. -/
def Index (s substr : String) : Int := indexFrom substr.data s.data 0

/-- Go `strings.Contains(s, substr)`, which is `Index(s, substr) >= 0`. -/
def Contains (s substr : String) : Bool := decide (Index s substr ≥ 0)

/-- The backward scan of `lazybuf` in Go `filepath.Clean` for a `..` element:
starting from `w`, step back while `w > dotdot` and `out[w]` is not a slash. -/
def filepath.backtrack (out : List Char) (dotdot : Nat) : Nat → Nat
  | 0 => 0
  | w + 1 =>
    if w + 1 > dotdot ∧ out.getD (w + 1) '/' ≠ '/' then filepath.backtrack out dotdot w
    else w + 1

/-- The main loop of Go `filepath.Clean` (Unix build): `r` is the index of the
next byte of `path` to process, `out` the output buffer, `dotdot` the index
where `..` must stop.  Every round consumes at least one byte of `path`, so
`path.length` rounds are enough. -/
def filepath.cleanLoop (path : List Char) (rooted : Bool) :
    Nat → Nat → List Char → Nat → List Char
  | 0, _, out, _ => out
  | fuel + 1, r, out, dotdot =>
    let n := path.length
    if r < n then
      if path.getD r ' ' = '/' then
        filepath.cleanLoop path rooted fuel (r + 1) out dotdot
      else if path.getD r ' ' = '.' ∧ (r + 1 = n ∨ path.getD (r + 1) ' ' = '/') then
        filepath.cleanLoop path rooted fuel (r + 1) out dotdot
      else if path.getD r ' ' = '.' ∧ path.getD (r + 1) ' ' = '.' ∧
          (r + 2 = n ∨ path.getD (r + 2) ' ' = '/') then
        if out.length > dotdot then
          filepath.cleanLoop path rooted fuel (r + 2)
            (out.take (filepath.backtrack out dotdot (out.length - 1))) dotdot
        else if !rooted then
          let out1 := if out.length > 0 then out ++ ['/'] else out
          let out2 := out1 ++ ['.', '.']
          filepath.cleanLoop path rooted fuel (r + 2) out2 out2.length
        else filepath.cleanLoop path rooted fuel (r + 2) out dotdot
      else
        let out1 :=
          if (rooted = true ∧ out.length ≠ 1) ∨ (rooted = false ∧ out.length ≠ 0) then out ++ ['/']
          else out
        let elem := (path.drop r).takeWhile (fun c => c ≠ '/')
        filepath.cleanLoop path rooted fuel (r + elem.length) (out1 ++ elem) dotdot
    else out

/-- Go `filepath.Clean(path)` on Unix, where the separator is `/`. -/
def filepath.Clean (path : String) : String :=
  if path = "" then "."
  else
    let p := path.data
    let rooted := decide (p.getD 0 ' ' = '/')
    let out :=
      if rooted then filepath.cleanLoop p rooted p.length 1 ['/'] 1
      else filepath.cleanLoop p rooted p.length 0 [] 0
    if out.length = 0 then "." else String.mk out

/-- Go `filepath.Join(a, b)` on Unix: the first non-empty element onwards,
joined by `/` and cleaned; `""` when both are empty. -/
def filepath.Join (a b : String) : String :=
  if a ≠ "" then filepath.Clean (a ++ "/" ++ b)
  else if b ≠ "" then filepath.Clean b
  else ""

/-! ## The program -/

/-- The `*sftp.Client` handed from the connection logic to the upload loop. -/
structure SftpClient where
  deriving DecidableEq, Repr

/-- copyToDest copies the src file to dst (lines 196-233); it does not delete
the source, which `moveToDest` does.  `defer s.Close()` runs last on every
path after the open. -/
def copyToDest (src dst : String) (w : World) : Option Err × World :=
  let s := osOpen src w
  match s.1 with
  | some err => (some err, s.2)
  | none =>
    let d := osCreate dst s.2
    match d.1 with
    | some err => (some err, (fileClose d.2).2)
    | none =>
      let c := ioCopy dst src d.2
      match c.1 with
      | some err =>
        let dClose := fileClose c.2
        (some err, (fileClose dClose.2).2)
      | none =>
        let dClose := fileClose c.2
        let sClose := fileClose dClose.2
        (none, (fileClose sClose.2).2)

/-- moveToDest will use copyToDest to copy file and then delete the source
file (lines 235-249). -/
def moveToDest (src dst : String) (w : World) : Option Err × World :=
  let c := copyToDest src dst w
  match c.1 with
  | some err => (some err, c.2)
  | none =>
    let r := osRemove src c.2
    match r.1 with
    | some err1 => (some err1, r.2)
    | none => (none, r.2)

/-- The function sftpUpload (lines 129-159).  `defer f.Close()` runs last on
every path after the open. -/
def sftpUpload (_sftpClient : SftpClient) (dstPath file : String) (w : World) :
    Option Err × World :=
  let f := osOpen file w
  match f.1 with
  | some err => (some (Err.wrapf err), f.2)
  | none =>
    let sf := sftpCreate dstPath f.2
    match sf.1 with
    | some err => (some (Err.wrapf err), (fileClose sf.2).2)
    | none =>
      let c := ioCopyRemote dstPath file sf.2
      match c.1 with
      | some err => (some (Err.wrapf err), (fileClose c.2).2)
      | none =>
        let sfClose := fileClose c.2
        (none, (fileClose sfClose.2).2)

/-- Append an event to the ghost record. -/
def World.record (w : World) (e : Event) : World :=
  { w with trace := w.trace ++ [e] }

/-- A call of `moveToDest` made by `main`, entered in the ghost record. -/
def callMoveToDest (src dst : String) (w : World) : Option Err × World :=
  let r := moveToDest src dst w
  (r.1, r.2.record (Event.moveToDest src dst r.1))

/-- A call of `sftpUpload` made by `main`, entered in the ghost record. -/
def callSftpUpload (sftpClient : SftpClient) (dstPath file : String) (w : World) :
    Option Err × World :=
  let r := sftpUpload sftpClient dstPath file w
  (r.1, r.2.record (Event.sftpUpload dstPath file r.1))

/-- The inner loop of the scan (lines 48-53): `validFile` after all filters. -/
def validFile (initConfig : Config) (fileName : FileInfo) : Bool :=
  initConfig.FileNameFilter.foldl
    (fun v filter => if Contains fileName.Name filter then true else v) false

/-- One round of the scan loop (lines 45-62) on `fileList` and the world. -/
def scanStep (initConfig : Config) (st : List FileInfo × World) (fileName : FileInfo) :
    List FileInfo × World :=
  if fileName.IsDir then st
  else if !validFile initConfig fileName then st
  else
    let m := callMoveToDest (initConfig.CollectionFolder ++ fileName.Name)
      (initConfig.ProcessingFolder ++ fileName.Name) st.2
    match m.1 with
    | some _ => (st.1, m.2)
    | none => (st.1 ++ [fileName], m.2)

/-- The scan of `main` (lines 41-64): `fileList` and the world after it. -/
def scan (initConfig : Config) (files : List FileInfo) (w : World) : List FileInfo × World :=
  if files.length > 0 then files.foldl (scanStep initConfig) ([], w) else ([], w)

/-- The connection logic of `main` from the label `ConnectToSFTP` (lines
72-109).  A `goto ConnectToSFTP` is a recursive call that spends one unit of
fuel; `none` means the fuel ran out, `some (none, _)` is the `return` after
"Maximum connection retry attempt exceeded". -/
def ConnectToSFTP (initConfig : Config) :
    Nat → Int → World → Option (Option SftpClient × World)
  | 0, _, _ => none
  | fuel + 1, retryCount, w =>
    let sshCon := sshDial initConfig.Server initConfig.User initConfig.Password w
    match sshCon.1 with
    | some _ =>
      let retryCount := retryCount + 1
      if retryCount > 3 then some (none, sshCon.2)
      else ConnectToSFTP initConfig fuel retryCount sshCon.2
    | none =>
      let sftpClient := sftpNewClient sshCon.2
      match sftpClient.1 with
      | some _ =>
        let retryCount := retryCount + 1
        if retryCount > 3 then some (none, sftpClient.2)
        else ConnectToSFTP initConfig fuel retryCount sftpClient.2
      | none => some (some SftpClient.mk, sftpClient.2)

/-- The local path the upload loop reads (line 112). -/
def srcFile (initConfig : Config) (localFile : FileInfo) : String :=
  filepath.Join initConfig.ProcessingFolder localFile.Name

/-- The remote path the upload loop writes (line 113). -/
def dstFile (initConfig : Config) (localFile : FileInfo) : String :=
  initConfig.RemoteSftpPath ++ localFile.Name

/-- The path in the done folder (line 121). -/
def doneFile (initConfig : Config) (localFile : FileInfo) : String :=
  filepath.Join initConfig.DoneFolder localFile.Name

/-- One round of the upload loop (lines 112-125). -/
def uploadStep (initConfig : Config) (sftpClient : SftpClient) (w : World)
    (localFile : FileInfo) : World :=
  let u := callSftpUpload sftpClient (dstFile initConfig localFile) (srcFile initConfig localFile) w
  match u.1 with
  | some _ => u.2
  | none => (callMoveToDest (srcFile initConfig localFile) (doneFile initConfig localFile) u.2).2

/-- The upload loop of `main` (lines 111-126). -/
def uploadLoop (initConfig : Config) (sftpClient : SftpClient) (fileList : List FileInfo)
    (w : World) : World :=
  fileList.foldl (uploadStep initConfig sftpClient) w

/-- The `return` (or `log.Fatalf`) at which a run of `main` ends. -/
inductive Exit where
  | readDirFailed
  | noFiles
  | connectionExhausted
  | finished
  deriving DecidableEq, Repr

/-- The function `main` from line 36 on, the configuration and the log file
being set up before (lines 23-33).  `readDir` is what
`ioutil.ReadDir(CollectionFolder)` returned, `none` for an error.  The result
is `none` only when the fuel of the connection logic ran out.  The deferred
`Close` of the log file, of `sshCon` and of `sftpClient` at the end of the run
touch neither the files nor the record and are left out. -/
def main (fuel : Nat) (initConfig : Config) (readDir : Option (List FileInfo)) (w : World) :
    Option (Exit × World) :=
  match readDir with
  | none => some (Exit.readDirFailed, w)
  | some files =>
    let st := scan initConfig files w
    if st.1.length < 1 then some (Exit.noFiles, st.2)
    else
      match ConnectToSFTP initConfig fuel 0 st.2 with
      | none => none
      | some (none, w2) => some (Exit.connectionExhausted, w2)
      | some (some sftpClient, w2) =>
        some (Exit.finished, uploadLoop initConfig sftpClient st.1 w2)

/-! ## Vocabulary of the specification -/

/-- The selection rule in the words of the specification: the entry is not a
directory and its name contains at least one filter string as a substring. -/
def Selected (initConfig : Config) (e : FileInfo) : Prop :=
  e.IsDir = false ∧ ∃ filter ∈ initConfig.FileNameFilter, filter.data <:+: e.Name.data

instance (initConfig : Config) (e : FileInfo) : Decidable (Selected initConfig e) := by
  unfold Selected; exact inferInstance

/-- The ghost record of one staging move: `moveToDest` from the collection
folder to the processing folder, with what it returned. -/
def stagingEvent (initConfig : Config) (e : FileInfo) (r : Option Err) : Event :=
  Event.moveToDest (initConfig.CollectionFolder ++ e.Name)
    (initConfig.ProcessingFolder ++ e.Name) r

/-- The entries of `es` whose paired return value is `nil`, in order. -/
def succeeded (es : List FileInfo) (rs : List (Option Err)) : List FileInfo :=
  (es.zip rs).filterMap (fun p => if p.2 = none then some p.1 else none)

/-- Whether an entry of the ghost record is a call of `ssh.Dial`. -/
def Event.isDial : Event → Bool
  | Event.sshDial _ => true
  | _ => false

/-- Whether an entry of the ghost record is a call of `sftp.NewClient`. -/
def Event.isNewClient : Event → Bool
  | Event.sftpNewClient _ => true
  | _ => false

/-- Whether an entry of the ghost record is a failed dial or session open. -/
def Event.isFailure : Event → Bool
  | Event.sshDial (some _) => true
  | Event.sftpNewClient (some _) => true
  | _ => false

/-- Whether an entry of the ghost record is a call of `sftpUpload` or of
`moveToDest`. -/
def Event.isTransfer : Event → Bool
  | Event.sftpUpload _ _ _ => true
  | Event.moveToDest _ _ _ => true
  | _ => false

/-- A record of connection attempts in which every attempt starts with a
dial, a session open comes only right after a successful dial, every failure
is followed by a fresh attempt or by nothing, and a successful session open
ends the record. -/
def attemptsInOrder : List Event → Bool
  | [] => true
  | Event.sshDial (some _) :: t => attemptsInOrder t
  | Event.sshDial none :: Event.sftpNewClient (some _) :: t => attemptsInOrder t
  | [Event.sshDial none, Event.sftpNewClient none] => true
  | _ => false

/-- Whether the next `n` connection attempts all fail, the next dial being
call number `d` of `ssh.Dial` and the next session open call number `c` of
`sftp.NewClient`: an attempt fails when its dial fails, or when its dial
succeeds and its session open fails. -/
def attemptsFail (dialFault clientFault : Nat → Bool) : Nat → Nat → Nat → Bool
  | 0, _, _ => true
  | n + 1, d, c =>
    if dialFault d then attemptsFail dialFault clientFault n (d + 1) c
    else clientFault c && attemptsFail dialFault clientFault n (d + 1) (c + 1)

/-- The ghost record of `n` failing connection attempts from dial number `d`
on: a failed dial, or a successful dial followed by a failed session open. -/
def failedAttempts (dialFault : Nat → Bool) : Nat → Nat → List Event
  | 0, _ => []
  | n + 1, d =>
    if dialFault d then
      Event.sshDial (some Err.sshDial) :: failedAttempts dialFault n (d + 1)
    else
      Event.sshDial none :: Event.sftpNewClient (some Err.sftpNewClient) ::
        failedAttempts dialFault n (d + 1)

/-- The part of the world that only the network calls read or change. -/
def World.net (w : World) : (Nat → Bool) × Nat × (Nat → Bool) × Nat :=
  (w.dialFault, w.dials, w.clientFault, w.clients)

/-- The bytes that `io.Copy` reads from the file `src` once the file `dst` has
been created: those of `src`, or none at all when `dst` is the same file,
which the creation has just truncated. -/
def readAfterCreate (src dst : String) (bytes : List Nat) : List Nat :=
  if src = dst then [] else bytes

/-- The value `sftpUpload` returns for a work item in the upload loop. -/
def uploadResult (initConfig : Config) (c : SftpClient) (w : World) (f : FileInfo) :
    Option Err :=
  (sftpUpload c (dstFile initConfig f) (srcFile initConfig f) w).1

/-- The value the relocation `moveToDest(srcFile, doneFile)` returns when it
is run after the upload of the work item. -/
def relocationResult (initConfig : Config) (c : SftpClient) (w : World) (f : FileInfo) :
    Option Err :=
  (moveToDest (srcFile initConfig f) (doneFile initConfig f)
    (sftpUpload c (dstFile initConfig f) (srcFile initConfig f) w).2).1

/-- The ghost record of one round of the upload loop: the upload, followed by
the relocation exactly when the upload returned `nil`. -/
def uploadEvents (initConfig : Config) (f : FileInfo) (r : Option Err × Option Err) :
    List Event :=
  Event.sftpUpload (dstFile initConfig f) (srcFile initConfig f) r.1 ::
    (if r.1 = none then [Event.moveToDest (srcFile initConfig f) (doneFile initConfig f) r.2]
     else [])

/-! ## Example worlds -/

/-- The file a path string names in a file system without links whose working
directory is the root: its canonical name is the cleaned absolute path,
written without the leading separator, so that `c/a`, `./c/a`, `c//a` and
`/c/a` all name the file `c/a`. -/
def fromRoot (path : String) : String :=
  String.mk ((filepath.Clean ("/" ++ path)).data.drop 1)

/-- A world with the given local files (by canonical name), no remote file,
and the file and stream calls listed in `faults` (by call number) made to
fail; an interrupted copy has written one byte.  There are no links and the
working directory is the root. -/
def World.start (fs : String → Option (List Nat)) (faults : List Nat)
    (dialFault clientFault : Nat → Bool) : World :=
  { file := fromRoot, fs := fs, remote := fun _ => none, fault := fun k => decide (k ∈ faults), cut := fun _ => 1,
    ticks := 0, dialFault := dialFault, dials := 0, clientFault := clientFault, clients := 0,
    trace := [] }

/-- A configuration with the given folders and filter, and `ConnectRetry`. -/
def Config.example (collection processing done : String) (filters : List String)
    (connectRetry : Int) : Config :=
  { Title := "", User := "u", Password := "p", Server := "host:22",
    CollectionFolder := collection, FileNameFilter := filters, ProcessingFolder := processing,
    DoneFolder := done, RemoteSftpPath := "r/", LogFile := "log", ConnectRetry := connectRetry,
    RetryInterval := 0 }

/-- One local file, of canonical name `path`, holding the bytes 1, 2, 3. -/
def oneFile (path : String) : String → Option (List Nat) :=
  fun p => if p = path then some [1, 2, 3] else none

/-- What a run of the connection logic that started with `k` failures behind
it has done when it ends with result `r` in world `w2`, having added `t` to the
ghost record. -/
structure ConnectRun (w : World) (k : Nat) (r : Option SftpClient) (w2 : World)
    (t : List Event) : Prop where
  trace_eq : w2.trace = w.trace ++ t
  fs_eq : w2.fs = w.fs
  file_eq : w2.file = w.file
  remote_eq : w2.remote = w.remote
  dials_le : t.countP Event.isDial + k ≤ 4
  clients_le : t.countP Event.isNewClient + k ≤ 4
  in_order : attemptsInOrder t = true
  no_transfer : ∀ e ∈ t, e.isTransfer = false
  exhausted : r = none → t.countP Event.isFailure + k = 4
  session : r ≠ none → t.countP Event.isFailure + k ≤ 3

/-- No collection path names the same file as a processing path, for the
names of the listing. -/
def StagesApart (initConfig : Config) (files : List FileInfo) (w : World) : Prop :=
  ∀ e ∈ files, ∀ f ∈ files,
    w.file (initConfig.CollectionFolder ++ e.Name)
      ≠ w.file (initConfig.ProcessingFolder ++ f.Name)

/-! ## Auxiliary lemmas -/

theorem indexFrom_nonneg_iff (substr : List Char) :
    ∀ (s : List Char) (i : Nat), 0 ≤ indexFrom substr s i ↔ substr <:+: s := by
  intro s
  induction s with
  | nil =>
    intro i
    by_cases h : substr = [] <;> simp [indexFrom, h]
  | cons c s ih =>
    intro i
    unfold indexFrom
    by_cases h : substr.isPrefixOf (c :: s) = true
    · have h2 : substr <+: c :: s := List.isPrefixOf_iff_prefix.mp h
      simp only [h, if_true]
      exact ⟨fun _ => h2.isInfix, fun _ => Int.natCast_nonneg i⟩
    · have h2 : ¬ substr <+: c :: s := fun hp => h (List.isPrefixOf_iff_prefix.mpr hp)
      simp only [h, Bool.false_eq_true, if_false]
      rw [ih (i + 1), List.infix_cons_iff]
      exact ⟨Or.inr, fun hh => hh.resolve_left h2⟩

theorem Contains_iff (s substr : String) :
    Contains s substr = true ↔ substr.data <:+: s.data := by
  unfold Contains Index
  rw [decide_eq_true_iff]
  exact indexFrom_nonneg_iff _ _ _

theorem validFile_foldl (name : String) (filters : List String) :
    ∀ b : Bool, filters.foldl (fun v filter => if Contains name filter then true else v) b
      = (b || filters.any (fun filter => Contains name filter)) := by
  induction filters with
  | nil => intro b; simp
  | cons f fs ih =>
    intro b
    rw [List.foldl_cons, ih]
    by_cases h : Contains name f = true <;> simp [h]

theorem validFile_iff (initConfig : Config) (e : FileInfo) :
    validFile initConfig e = true ↔
      ∃ filter ∈ initConfig.FileNameFilter, filter.data <:+: e.Name.data := by
  unfold validFile
  rw [validFile_foldl]
  simp [List.any_eq_true, Contains_iff]

@[simp] theorem osOpen_trace (path : String) (w : World) : (osOpen path w).2.trace = w.trace := by
  unfold osOpen; dsimp only; repeat' split
  all_goals rfl

@[simp] theorem osOpen_net (path : String) (w : World) : (osOpen path w).2.net = w.net := by
  unfold osOpen; dsimp only; repeat' split
  all_goals rfl

@[simp] theorem osOpen_ticks (path : String) (w : World) : (osOpen path w).2.ticks = w.ticks + 1 := by
  unfold osOpen; dsimp only; repeat' split
  all_goals rfl

@[simp] theorem osOpen_fault (path : String) (w : World) : (osOpen path w).2.fault = w.fault := by
  unfold osOpen; dsimp only; repeat' split
  all_goals rfl

@[simp] theorem osOpen_cut (path : String) (w : World) : (osOpen path w).2.cut = w.cut := by
  unfold osOpen; dsimp only; repeat' split
  all_goals rfl

@[simp] theorem osCreate_trace (path : String) (w : World) : (osCreate path w).2.trace = w.trace := by
  unfold osCreate; dsimp only; repeat' split
  all_goals rfl

@[simp] theorem osCreate_net (path : String) (w : World) : (osCreate path w).2.net = w.net := by
  unfold osCreate; dsimp only; repeat' split
  all_goals rfl

@[simp] theorem osCreate_ticks (path : String) (w : World) : (osCreate path w).2.ticks = w.ticks + 1 := by
  unfold osCreate; dsimp only; repeat' split
  all_goals rfl

@[simp] theorem osCreate_fault (path : String) (w : World) : (osCreate path w).2.fault = w.fault := by
  unfold osCreate; dsimp only; repeat' split
  all_goals rfl

@[simp] theorem osCreate_cut (path : String) (w : World) : (osCreate path w).2.cut = w.cut := by
  unfold osCreate; dsimp only; repeat' split
  all_goals rfl

@[simp] theorem ioCopy_trace (d s : String) (w : World) : (ioCopy d s w).2.trace = w.trace := by
  unfold ioCopy; dsimp only; repeat' split
  all_goals rfl

@[simp] theorem ioCopy_net (d s : String) (w : World) : (ioCopy d s w).2.net = w.net := by
  unfold ioCopy; dsimp only; repeat' split
  all_goals rfl

@[simp] theorem ioCopy_ticks (d s : String) (w : World) : (ioCopy d s w).2.ticks = w.ticks + 1 := by
  unfold ioCopy; dsimp only; repeat' split
  all_goals rfl

@[simp] theorem ioCopy_fault (d s : String) (w : World) : (ioCopy d s w).2.fault = w.fault := by
  unfold ioCopy; dsimp only; repeat' split
  all_goals rfl

@[simp] theorem ioCopy_cut (d s : String) (w : World) : (ioCopy d s w).2.cut = w.cut := by
  unfold ioCopy; dsimp only; repeat' split
  all_goals rfl

@[simp] theorem fileClose_trace (w : World) : (fileClose w).2.trace = w.trace := by
  unfold fileClose; dsimp only; repeat' split
  all_goals rfl

@[simp] theorem fileClose_net (w : World) : (fileClose w).2.net = w.net := by
  unfold fileClose; dsimp only; repeat' split
  all_goals rfl

@[simp] theorem fileClose_ticks (w : World) : (fileClose w).2.ticks = w.ticks + 1 := by
  unfold fileClose; dsimp only; repeat' split
  all_goals rfl

@[simp] theorem fileClose_fault (w : World) : (fileClose w).2.fault = w.fault := by
  unfold fileClose; dsimp only; repeat' split
  all_goals rfl

@[simp] theorem fileClose_cut (w : World) : (fileClose w).2.cut = w.cut := by
  unfold fileClose; dsimp only; repeat' split
  all_goals rfl

@[simp] theorem osRemove_trace (path : String) (w : World) : (osRemove path w).2.trace = w.trace := by
  unfold osRemove; dsimp only; repeat' split
  all_goals rfl

@[simp] theorem osRemove_net (path : String) (w : World) : (osRemove path w).2.net = w.net := by
  unfold osRemove; dsimp only; repeat' split
  all_goals rfl

@[simp] theorem osRemove_ticks (path : String) (w : World) : (osRemove path w).2.ticks = w.ticks + 1 := by
  unfold osRemove; dsimp only; repeat' split
  all_goals rfl

@[simp] theorem osRemove_fault (path : String) (w : World) : (osRemove path w).2.fault = w.fault := by
  unfold osRemove; dsimp only; repeat' split
  all_goals rfl

@[simp] theorem osRemove_cut (path : String) (w : World) : (osRemove path w).2.cut = w.cut := by
  unfold osRemove; dsimp only; repeat' split
  all_goals rfl

@[simp] theorem sftpCreate_trace (path : String) (w : World) : (sftpCreate path w).2.trace = w.trace := by
  unfold sftpCreate; dsimp only; repeat' split
  all_goals rfl

@[simp] theorem sftpCreate_net (path : String) (w : World) : (sftpCreate path w).2.net = w.net := by
  unfold sftpCreate; dsimp only; repeat' split
  all_goals rfl

@[simp] theorem sftpCreate_ticks (path : String) (w : World) : (sftpCreate path w).2.ticks = w.ticks + 1 := by
  unfold sftpCreate; dsimp only; repeat' split
  all_goals rfl

@[simp] theorem sftpCreate_fault (path : String) (w : World) : (sftpCreate path w).2.fault = w.fault := by
  unfold sftpCreate; dsimp only; repeat' split
  all_goals rfl

@[simp] theorem sftpCreate_cut (path : String) (w : World) : (sftpCreate path w).2.cut = w.cut := by
  unfold sftpCreate; dsimp only; repeat' split
  all_goals rfl

@[simp] theorem ioCopyRemote_trace (sf f : String) (w : World) : (ioCopyRemote sf f w).2.trace = w.trace := by
  unfold ioCopyRemote; dsimp only; repeat' split
  all_goals rfl

@[simp] theorem ioCopyRemote_net (sf f : String) (w : World) : (ioCopyRemote sf f w).2.net = w.net := by
  unfold ioCopyRemote; dsimp only; repeat' split
  all_goals rfl

@[simp] theorem ioCopyRemote_ticks (sf f : String) (w : World) : (ioCopyRemote sf f w).2.ticks = w.ticks + 1 := by
  unfold ioCopyRemote; dsimp only; repeat' split
  all_goals rfl

@[simp] theorem ioCopyRemote_fault (sf f : String) (w : World) : (ioCopyRemote sf f w).2.fault = w.fault := by
  unfold ioCopyRemote; dsimp only; repeat' split
  all_goals rfl

@[simp] theorem ioCopyRemote_cut (sf f : String) (w : World) : (ioCopyRemote sf f w).2.cut = w.cut := by
  unfold ioCopyRemote; dsimp only; repeat' split
  all_goals rfl

@[simp] theorem osOpen_fs (path : String) (w : World) : (osOpen path w).2.fs = w.fs := by
  unfold osOpen; dsimp only; repeat' split
  all_goals rfl

@[simp] theorem fileClose_fs (w : World) : (fileClose w).2.fs = w.fs := by
  unfold fileClose; dsimp only; repeat' split
  all_goals rfl

@[simp] theorem sftpCreate_fs (path : String) (w : World) : (sftpCreate path w).2.fs = w.fs := by
  unfold sftpCreate; dsimp only; repeat' split
  all_goals rfl

@[simp] theorem ioCopyRemote_fs (sf f : String) (w : World) : (ioCopyRemote sf f w).2.fs = w.fs := by
  unfold ioCopyRemote; dsimp only; repeat' split
  all_goals rfl

@[simp] theorem osOpen_remote (path : String) (w : World) : (osOpen path w).2.remote = w.remote := by
  unfold osOpen; dsimp only; repeat' split
  all_goals rfl

@[simp] theorem fileClose_remote (w : World) : (fileClose w).2.remote = w.remote := by
  unfold fileClose; dsimp only; repeat' split
  all_goals rfl

@[simp] theorem osCreate_remote (path : String) (w : World) : (osCreate path w).2.remote = w.remote := by
  unfold osCreate; dsimp only; repeat' split
  all_goals rfl

@[simp] theorem ioCopy_remote (d s : String) (w : World) : (ioCopy d s w).2.remote = w.remote := by
  unfold ioCopy; dsimp only; repeat' split
  all_goals rfl

@[simp] theorem osRemove_remote (path : String) (w : World) : (osRemove path w).2.remote = w.remote := by
  unfold osRemove; dsimp only; repeat' split
  all_goals rfl

@[simp] theorem osOpen_file (path : String) (w : World) : (osOpen path w).2.file = w.file := by
  unfold osOpen; dsimp only; repeat' split
  all_goals rfl

@[simp] theorem osCreate_file (path : String) (w : World) : (osCreate path w).2.file = w.file := by
  unfold osCreate; dsimp only; repeat' split
  all_goals rfl

@[simp] theorem ioCopy_file (d s : String) (w : World) : (ioCopy d s w).2.file = w.file := by
  unfold ioCopy; dsimp only; repeat' split
  all_goals rfl

@[simp] theorem fileClose_file (w : World) : (fileClose w).2.file = w.file := by
  unfold fileClose; dsimp only; repeat' split
  all_goals rfl

@[simp] theorem osRemove_file (path : String) (w : World) : (osRemove path w).2.file = w.file := by
  unfold osRemove; dsimp only; repeat' split
  all_goals rfl

@[simp] theorem sftpCreate_file (path : String) (w : World) : (sftpCreate path w).2.file = w.file := by
  unfold sftpCreate; dsimp only; repeat' split
  all_goals rfl

@[simp] theorem ioCopyRemote_file (sf f : String) (w : World) : (ioCopyRemote sf f w).2.file = w.file := by
  unfold ioCopyRemote; dsimp only; repeat' split
  all_goals rfl

@[simp] theorem copyToDest_file (src dst : String) (w : World) :
    (copyToDest src dst w).2.file = w.file := by
  unfold copyToDest; dsimp only; repeat' split
  all_goals simp

@[simp] theorem moveToDest_file (src dst : String) (w : World) :
    (moveToDest src dst w).2.file = w.file := by
  unfold moveToDest; dsimp only; repeat' split
  all_goals simp

@[simp] theorem sftpUpload_file (c : SftpClient) (dstPath file : String) (w : World) :
    (sftpUpload c dstPath file w).2.file = w.file := by
  unfold sftpUpload; dsimp only; repeat' split
  all_goals simp

theorem copyToDest_trace (src dst : String) (w : World) :
    (copyToDest src dst w).2.trace = w.trace := by
  unfold copyToDest; dsimp only; repeat' split
  all_goals simp

theorem copyToDest_net (src dst : String) (w : World) :
    (copyToDest src dst w).2.net = w.net := by
  unfold copyToDest; dsimp only; repeat' split
  all_goals simp

@[simp] theorem moveToDest_trace (src dst : String) (w : World) :
    (moveToDest src dst w).2.trace = w.trace := by
  unfold moveToDest; dsimp only; repeat' split
  all_goals simp [copyToDest_trace]

@[simp] theorem moveToDest_net (src dst : String) (w : World) :
    (moveToDest src dst w).2.net = w.net := by
  unfold moveToDest; dsimp only; repeat' split
  all_goals simp [copyToDest_net]

@[simp] theorem moveToDest_remote (src dst : String) (w : World) :
    (moveToDest src dst w).2.remote = w.remote := by
  unfold moveToDest copyToDest; dsimp only; repeat' split
  all_goals simp

@[simp] theorem sftpUpload_trace (c : SftpClient) (dstPath file : String) (w : World) :
    (sftpUpload c dstPath file w).2.trace = w.trace := by
  unfold sftpUpload; dsimp only; repeat' split
  all_goals simp

@[simp] theorem sftpUpload_net (c : SftpClient) (dstPath file : String) (w : World) :
    (sftpUpload c dstPath file w).2.net = w.net := by
  unfold sftpUpload; dsimp only; repeat' split
  all_goals simp

@[simp] theorem sftpUpload_fs (c : SftpClient) (dstPath file : String) (w : World) :
    (sftpUpload c dstPath file w).2.fs = w.fs := by
  unfold sftpUpload; dsimp only; repeat' split
  all_goals simp

theorem callMoveToDest_trace (src dst : String) (w : World) :
    (callMoveToDest src dst w).2.trace
      = w.trace ++ [Event.moveToDest src dst (callMoveToDest src dst w).1] := by
  simp [callMoveToDest, World.record]

theorem callMoveToDest_net (src dst : String) (w : World) :
    (callMoveToDest src dst w).2.net = w.net := by
  have h := moveToDest_net src dst w
  simpa [callMoveToDest, World.record, World.net] using h

theorem callMoveToDest_fs (src dst : String) (w : World) :
    (callMoveToDest src dst w).2.fs = (moveToDest src dst w).2.fs := by
  simp [callMoveToDest, World.record]

theorem callMoveToDest_file (src dst : String) (w : World) :
    (callMoveToDest src dst w).2.file = w.file := by
  simp [callMoveToDest, World.record]

theorem callMoveToDest_remote (src dst : String) (w : World) :
    (callMoveToDest src dst w).2.remote = w.remote := by
  simp [callMoveToDest, World.record]

theorem callMoveToDest_fst (src dst : String) (w : World) :
    (callMoveToDest src dst w).1 = (moveToDest src dst w).1 := rfl

theorem selected_iff (initConfig : Config) (e : FileInfo) :
    Selected initConfig e ↔ e.IsDir = false ∧ validFile initConfig e = true := by
  unfold Selected
  rw [validFile_iff]

theorem scanStep_of_not_selected (initConfig : Config) (st : List FileInfo × World)
    (e : FileInfo) (h : ¬ Selected initConfig e) : scanStep initConfig st e = st := by
  rw [selected_iff] at h
  unfold scanStep
  by_cases hd : e.IsDir = true
  · simp [hd]
  · have hv : validFile initConfig e = false := by
      cases hv : validFile initConfig e
      · rfl
      · exact absurd ⟨by simpa using hd, hv⟩ h
    simp [hd, hv]

theorem scanStep_of_selected (initConfig : Config) (st : List FileInfo × World)
    (e : FileInfo) (h : Selected initConfig e) :
    ∃ r : Option Err,
      (scanStep initConfig st e).2.trace = st.2.trace ++ [stagingEvent initConfig e r] ∧
      (scanStep initConfig st e).1 = st.1 ++ succeeded [e] [r] ∧
      (scanStep initConfig st e).2.net = st.2.net := by
  rw [selected_iff] at h
  obtain ⟨hd, hv⟩ := h
  refine ⟨(callMoveToDest (initConfig.CollectionFolder ++ e.Name)
    (initConfig.ProcessingFolder ++ e.Name) st.2).1, ?_⟩
  unfold scanStep
  simp only [hd, hv, Bool.false_eq_true, if_false, Bool.not_true]
  cases hr : (callMoveToDest (initConfig.CollectionFolder ++ e.Name)
    (initConfig.ProcessingFolder ++ e.Name) st.2).1 with
  | none =>
    have ht := callMoveToDest_trace (initConfig.CollectionFolder ++ e.Name)
      (initConfig.ProcessingFolder ++ e.Name) st.2
    rw [hr] at ht
    simp [ht, stagingEvent, succeeded, callMoveToDest_net]
  | some err =>
    have ht := callMoveToDest_trace (initConfig.CollectionFolder ++ e.Name)
      (initConfig.ProcessingFolder ++ e.Name) st.2
    rw [hr] at ht
    simp [ht, stagingEvent, succeeded, callMoveToDest_net]

/-- What the scan loop does to the work list and to the ghost record, for any
starting state of the loop. -/
theorem foldl_scanStep (initConfig : Config) :
    ∀ (files : List FileInfo) (st : List FileInfo × World),
      ∃ rs : List (Option Err),
        rs.length = (files.filter (fun e => decide (Selected initConfig e))).length ∧
        (files.foldl (scanStep initConfig) st).2.trace
          = st.2.trace ++ List.zipWith (stagingEvent initConfig)
              (files.filter (fun e => decide (Selected initConfig e))) rs ∧
        (files.foldl (scanStep initConfig) st).1
          = st.1 ++ succeeded (files.filter (fun e => decide (Selected initConfig e))) rs ∧
        (files.foldl (scanStep initConfig) st).2.net = st.2.net := by
  intro files
  induction files with
  | nil => intro st; exact ⟨[], by simp [succeeded]⟩
  | cons e files ih =>
    intro st
    by_cases h : Selected initConfig e
    · obtain ⟨r, h1, h2, h3⟩ := scanStep_of_selected initConfig st e h
      obtain ⟨rs, g0, g1, g2, g3⟩ := ih (scanStep initConfig st e)
      refine ⟨r :: rs, ?_, ?_, ?_, ?_⟩
      · simp [h, g0]
      · rw [List.foldl_cons, g1, h1]
        simp [h]
      · rw [List.foldl_cons, g2, h2]
        simp only [List.filter_cons, h, decide_True, if_true]
        cases r <;> simp [succeeded]
      · rw [List.foldl_cons, g3, h3]
    · obtain ⟨rs, g0, g1, g2, g3⟩ := ih st
      refine ⟨rs, ?_, ?_, ?_, ?_⟩
      · simp [h, g0]
      · rw [List.foldl_cons, scanStep_of_not_selected initConfig st e h, g1]
        simp [h]
      · rw [List.foldl_cons, scanStep_of_not_selected initConfig st e h, g2]
        simp [h]
      · rw [List.foldl_cons, scanStep_of_not_selected initConfig st e h, g3]

theorem scan_eq_foldl (initConfig : Config) (files : List FileInfo) (w : World) :
    scan initConfig files w = files.foldl (scanStep initConfig) ([], w) := by
  unfold scan
  cases files <;> simp

/-! ### What each file call returns and does to the local files -/

theorem osOpen_fst (path : String) (w : World) :
    (osOpen path w).1
      = if w.fault w.ticks = true ∨ w.read path = none then some Err.osOpen else none := by
  unfold osOpen World.read; dsimp only
  by_cases h : w.fault w.ticks = true
  · simp [h]
  · cases hp : w.fs (w.file path) <;> simp [h]

theorem osCreate_fst (path : String) (w : World) :
    (osCreate path w).1 = if w.fault w.ticks = true then some Err.osCreate else none := by
  unfold osCreate; dsimp only
  by_cases h : w.fault w.ticks = true <;> simp [h]

theorem osCreate_fs (path : String) (w : World) :
    (osCreate path w).2.fs
      = if w.fault w.ticks = true then w.fs
        else fun f => if f = w.file path then some [] else w.fs f := by
  unfold osCreate; dsimp only
  by_cases h : w.fault w.ticks = true <;> simp [h]

theorem ioCopy_fst (d s : String) (w : World) (bytes : List Nat) (hs : w.read s = some bytes) :
    (ioCopy d s w).1 = if w.fault w.ticks = true then some Err.ioCopy else none := by
  unfold World.read at hs
  unfold ioCopy; dsimp only
  by_cases h : w.fault w.ticks = true <;> simp [h, hs]

theorem ioCopy_fs (d s : String) (w : World) (bytes : List Nat) (hs : w.read s = some bytes) :
    (ioCopy d s w).2.fs
      = if w.fault w.ticks = true
        then fun f => if f = w.file d then some (bytes.take (w.cut w.ticks)) else w.fs f
        else fun f => if f = w.file d then some bytes else w.fs f := by
  unfold World.read at hs
  unfold ioCopy; dsimp only
  by_cases h : w.fault w.ticks = true <;> simp [h, hs]

theorem osRemove_fst (path : String) (w : World) :
    (osRemove path w).1
      = if w.fault w.ticks = true ∨ w.read path = none then some Err.osRemove else none := by
  unfold osRemove World.read; dsimp only
  by_cases h : w.fault w.ticks = true
  · simp [h]
  · cases hp : w.fs (w.file path) <;> simp [h]

theorem osRemove_fs (path : String) (w : World) :
    (osRemove path w).2.fs
      = if w.fault w.ticks = true ∨ w.read path = none then w.fs
        else fun f => if f = w.file path then none else w.fs f := by
  unfold osRemove World.read; dsimp only
  by_cases h : w.fault w.ticks = true
  · simp [h]
  · cases hp : w.fs (w.file path) <;> simp [h]

/-- Every way a call of `copyToDest` can end, with the local files it leaves. -/
theorem copyToDest_outcome (src dst : String) (w : World) :
    ((copyToDest src dst w).1 = some Err.osOpen ∧ (copyToDest src dst w).2.fs = w.fs) ∨
    ∃ bytes, w.read src = some bytes ∧
      (((copyToDest src dst w).1 = some Err.osCreate ∧ (copyToDest src dst w).2.fs = w.fs) ∨
       ((copyToDest src dst w).1 = some Err.ioCopy ∧
          ∃ k, (copyToDest src dst w).2.fs
            = fun f => if f = w.file dst
                then some ((readAfterCreate (w.file src) (w.file dst) bytes).take k)
                else w.fs f) ∨
       ((copyToDest src dst w).1 = none ∧
          (copyToDest src dst w).2.fs
            = fun f => if f = w.file dst
                then some (readAfterCreate (w.file src) (w.file dst) bytes)
                else w.fs f)) := by
  unfold copyToDest; dsimp only
  have hO := osOpen_fst src w
  by_cases h0 : w.fault w.ticks = true ∨ w.read src = none
  · rw [if_pos h0] at hO
    left
    simp [hO]
  · rw [if_neg h0] at hO
    right
    have hex : ∃ bytes, w.read src = some bytes := by
      cases hp : w.read src with
      | none => exact absurd (Or.inr hp) h0
      | some b => exact ⟨b, rfl⟩
    obtain ⟨bytes, hb⟩ := hex
    refine ⟨bytes, hb, ?_⟩
    simp only [hO]
    have hC := osCreate_fst dst (osOpen src w).2
    have hCf := osCreate_fs dst (osOpen src w).2
    simp only [osOpen_file, osOpen_fs] at hCf
    by_cases h1 : (osOpen src w).2.fault (osOpen src w).2.ticks = true
    · rw [if_pos h1] at hC hCf
      left
      simp [hC, hCf]
    · rw [if_neg h1] at hC hCf
      right
      simp only [hC]
      have hsrc : (osCreate dst (osOpen src w).2).2.read src
          = some (readAfterCreate (w.file src) (w.file dst) bytes) := by
        unfold World.read at hb ⊢
        rw [hCf]
        simp only [osCreate_file, osOpen_file]
        by_cases hsd : w.file src = w.file dst
        · simp [readAfterCreate, hsd]
        · simp [readAfterCreate, hsd, hb]
      have hI := ioCopy_fst dst src _ _ hsrc
      have hIf := ioCopy_fs dst src _ _ hsrc
      simp only [osCreate_file, osOpen_file] at hIf
      by_cases h2 : (osCreate dst (osOpen src w).2).2.fault
          (osCreate dst (osOpen src w).2).2.ticks = true
      · rw [if_pos h2] at hI hIf
        left
        refine ⟨by simp [hI], ?_⟩
        refine ⟨(osCreate dst (osOpen src w).2).2.cut (osCreate dst (osOpen src w).2).2.ticks, ?_⟩
        simp only [hI, fileClose_fs, hIf, hCf]
        funext f
        by_cases hp : f = w.file dst <;> simp [hp]
      · rw [if_neg h2] at hI hIf
        right
        refine ⟨by simp [hI], ?_⟩
        simp only [hI, fileClose_fs, hIf, hCf]
        funext f
        by_cases hp : f = w.file dst <;> simp [hp]

/-- Every way a call of `moveToDest` can end, with the local files it leaves. -/
theorem moveToDest_outcome (src dst : String) (w : World) :
    ((moveToDest src dst w).1 = some Err.osOpen ∧ (moveToDest src dst w).2.fs = w.fs) ∨
    ∃ bytes, w.read src = some bytes ∧
      (((moveToDest src dst w).1 = some Err.osCreate ∧ (moveToDest src dst w).2.fs = w.fs) ∨
       ((moveToDest src dst w).1 = some Err.ioCopy ∧
          ∃ k, (moveToDest src dst w).2.fs
            = fun f => if f = w.file dst
                then some ((readAfterCreate (w.file src) (w.file dst) bytes).take k)
                else w.fs f) ∨
       ((moveToDest src dst w).1 = some Err.osRemove ∧
          (moveToDest src dst w).2.fs
            = fun f => if f = w.file dst
                then some (readAfterCreate (w.file src) (w.file dst) bytes)
                else w.fs f) ∨
       ((moveToDest src dst w).1 = none ∧
          (moveToDest src dst w).2.fs
            = fun f => if f = w.file src then none
                else if f = w.file dst
                  then some (readAfterCreate (w.file src) (w.file dst) bytes)
                  else w.fs f)) := by
  unfold moveToDest; dsimp only
  rcases copyToDest_outcome src dst w with ⟨h1, h2⟩ | ⟨bytes, hb, h⟩
  · left; simp [h1, h2]
  · right
    refine ⟨bytes, hb, ?_⟩
    rcases h with ⟨h1, h2⟩ | ⟨h1, k, h2⟩ | ⟨h1, h2⟩
    · left; simp [h1, h2]
    · right; left
      simp only [h1]
      exact ⟨trivial, k, h2⟩
    · right; right
      simp only [h1]
      have hsrc : (copyToDest src dst w).2.read src ≠ none := by
        unfold World.read at hb ⊢
        rw [h2]
        simp only [copyToDest_file]
        by_cases hsd : w.file src = w.file dst <;> simp [hsd, hb]
      have hR := osRemove_fst src (copyToDest src dst w).2
      have hRf := osRemove_fs src (copyToDest src dst w).2
      simp only [copyToDest_file] at hRf
      by_cases h3 : (copyToDest src dst w).2.fault (copyToDest src dst w).2.ticks = true
      · rw [if_pos (Or.inl h3)] at hR hRf
        left
        simp [hR, hRf, h2]
      · have h4 : ¬ ((copyToDest src dst w).2.fault (copyToDest src dst w).2.ticks = true ∨
            (copyToDest src dst w).2.read src = none) := fun hh => hh.elim h3 hsrc
        rw [if_neg h4] at hR hRf
        right
        simp [hR, hRf, h2]

/-! ### The ghost record does not influence the file calls -/

theorem osOpen_record (path : String) (w : World) (e : Event) :
    osOpen path (w.record e) = ((osOpen path w).1, (osOpen path w).2.record e) := by
  unfold osOpen World.record; dsimp only; repeat' split
  all_goals rfl

theorem osCreate_record (path : String) (w : World) (e : Event) :
    osCreate path (w.record e) = ((osCreate path w).1, (osCreate path w).2.record e) := by
  unfold osCreate World.record; dsimp only; repeat' split
  all_goals rfl

theorem ioCopy_record (d s : String) (w : World) (e : Event) :
    ioCopy d s (w.record e) = ((ioCopy d s w).1, (ioCopy d s w).2.record e) := by
  unfold ioCopy World.record; dsimp only; repeat' split
  all_goals rfl

theorem fileClose_record (w : World) (e : Event) :
    fileClose (w.record e) = ((fileClose w).1, (fileClose w).2.record e) := by
  unfold fileClose World.record; dsimp only; repeat' split
  all_goals rfl

theorem osRemove_record (path : String) (w : World) (e : Event) :
    osRemove path (w.record e) = ((osRemove path w).1, (osRemove path w).2.record e) := by
  unfold osRemove World.record; dsimp only; repeat' split
  all_goals rfl

theorem sftpCreate_record (path : String) (w : World) (e : Event) :
    sftpCreate path (w.record e) = ((sftpCreate path w).1, (sftpCreate path w).2.record e) := by
  unfold sftpCreate World.record; dsimp only; repeat' split
  all_goals rfl

theorem ioCopyRemote_record (sf f : String) (w : World) (e : Event) :
    ioCopyRemote sf f (w.record e) = ((ioCopyRemote sf f w).1, (ioCopyRemote sf f w).2.record e) := by
  unfold ioCopyRemote World.record; dsimp only; repeat' split
  all_goals rfl

theorem copyToDest_record (src dst : String) (w : World) (e : Event) :
    copyToDest src dst (w.record e)
      = ((copyToDest src dst w).1, (copyToDest src dst w).2.record e) := by
  unfold copyToDest; dsimp only
  simp only [osOpen_record, osCreate_record, ioCopy_record, fileClose_record]
  repeat' split
  all_goals rfl

theorem moveToDest_record (src dst : String) (w : World) (e : Event) :
    moveToDest src dst (w.record e)
      = ((moveToDest src dst w).1, (moveToDest src dst w).2.record e) := by
  unfold moveToDest; dsimp only
  simp only [copyToDest_record, osRemove_record]
  repeat' split
  all_goals rfl

theorem sftpUpload_ok_src (c : SftpClient) (dstPath file : String) (w : World)
    (h : (sftpUpload c dstPath file w).1 = none) : ∃ bytes, w.read file = some bytes := by
  unfold sftpUpload at h
  dsimp only at h
  have hO := osOpen_fst file w
  by_cases h0 : w.fault w.ticks = true ∨ w.read file = none
  · rw [if_pos h0] at hO
    simp [hO] at h
  · cases hp : w.read file with
    | none => exact absurd (Or.inr hp) h0
    | some b => exact ⟨b, rfl⟩

theorem uploadStep_of_ok (initConfig : Config) (c : SftpClient) (w : World) (f : FileInfo)
    (h : uploadResult initConfig c w f = none) :
    (uploadStep initConfig c w f).fs
      = (moveToDest (srcFile initConfig f) (doneFile initConfig f)
          (sftpUpload c (dstFile initConfig f) (srcFile initConfig f) w).2).2.fs ∧
    (uploadStep initConfig c w f).trace
      = w.trace ++ uploadEvents initConfig f (none, relocationResult initConfig c w f) ∧
    (uploadStep initConfig c w f).net = w.net ∧
    (uploadStep initConfig c w f).file = w.file := by
  unfold uploadResult at h
  unfold uploadStep relocationResult uploadEvents
  simp only [callSftpUpload, callMoveToDest, h, moveToDest_record]
  refine ⟨rfl, ?_, ?_, ?_⟩
  · simp [World.record]
  · have h1 := moveToDest_net (srcFile initConfig f) (doneFile initConfig f)
      (sftpUpload c (dstFile initConfig f) (srcFile initConfig f) w).2
    have h2 := sftpUpload_net c (dstFile initConfig f) (srcFile initConfig f) w
    simp only [World.net, World.record] at h1 h2 ⊢
    rw [← h2, ← h1]
  · simp [World.record]

theorem uploadStep_of_failed (initConfig : Config) (c : SftpClient) (w : World) (f : FileInfo)
    (e : Err) (h : uploadResult initConfig c w f = some e) :
    (uploadStep initConfig c w f).fs = w.fs ∧
    (uploadStep initConfig c w f).trace
      = w.trace ++ uploadEvents initConfig f (some e, none) ∧
    (uploadStep initConfig c w f).net = w.net := by
  unfold uploadResult at h
  unfold uploadStep uploadEvents
  simp only [callSftpUpload, h]
  refine ⟨?_, ?_, ?_⟩
  · simp [World.record]
  · simp [World.record]
  · have h2 := sftpUpload_net c (dstFile initConfig f) (srcFile initConfig f) w
    simp only [World.net, World.record] at h2 ⊢
    rw [← h2]

/-- Every way a call of `moveToDest` can end when `src` and `dst` do not name
the same file and the file of `src` holds `bytes`. -/
theorem moveToDest_distinct (src dst : String) (w : World) (bytes : List Nat)
    (hne : w.file src ≠ w.file dst) (hs : w.read src = some bytes) :
    ((moveToDest src dst w).2.read src = some bytes ∨
      (moveToDest src dst w).2.read dst = some bytes) ∧
    ((moveToDest src dst w).1 = none ∨ (moveToDest src dst w).1 = some Err.osOpen ∨
      (moveToDest src dst w).1 = some Err.osCreate ∨ (moveToDest src dst w).1 = some Err.ioCopy ∨
      (moveToDest src dst w).1 = some Err.osRemove) ∧
    ((moveToDest src dst w).1 = some Err.osOpen ∨ (moveToDest src dst w).1 = some Err.osCreate ∨
        (moveToDest src dst w).1 = some Err.ioCopy →
      (moveToDest src dst w).2.read src = some bytes) ∧
    ((moveToDest src dst w).1 = some Err.osRemove →
      (moveToDest src dst w).2.read src = some bytes ∧
      (moveToDest src dst w).2.read dst = some bytes) ∧
    ((moveToDest src dst w).1 = none →
      (moveToDest src dst w).2.read src = none ∧
      (moveToDest src dst w).2.read dst = some bytes) := by
  have hds : w.file dst ≠ w.file src := fun h => hne h.symm
  unfold World.read at hs ⊢
  simp only [moveToDest_file]
  rcases moveToDest_outcome src dst w with ⟨h1, h2⟩ | ⟨b, hb, h⟩
  · simp [h1, h2, hs]
  · have hbb : b = bytes := by
      unfold World.read at hb
      rw [hs] at hb
      exact (Option.some.inj hb).symm
    subst hbb
    rcases h with ⟨h1, h2⟩ | ⟨h1, k, h2⟩ | ⟨h1, h2⟩ | ⟨h1, h2⟩
    · simp [h1, h2, hs]
    · simp [h1, h2, hs, hne]
    · simp [h1, h2, hs, hne, readAfterCreate]
    · simp [h1, h2, hne, hds, readAfterCreate]

/-! ### The connection logic -/

theorem sshDial_fst (a u p : String) (w : World) :
    (sshDial a u p w).1 = if w.dialFault w.dials = true then some Err.sshDial else none := rfl

theorem sshDial_trace (a u p : String) (w : World) :
    (sshDial a u p w).2.trace = w.trace ++ [Event.sshDial (sshDial a u p w).1] := rfl

@[simp] theorem sshDial_fs (a u p : String) (w : World) : (sshDial a u p w).2.fs = w.fs := rfl

@[simp] theorem sshDial_file (a u p : String) (w : World) :
    (sshDial a u p w).2.file = w.file := rfl

@[simp] theorem sftpNewClient_file (w : World) : (sftpNewClient w).2.file = w.file := rfl

@[simp] theorem sshDial_remote (a u p : String) (w : World) :
    (sshDial a u p w).2.remote = w.remote := rfl

theorem sftpNewClient_trace (w : World) :
    (sftpNewClient w).2.trace = w.trace ++ [Event.sftpNewClient (sftpNewClient w).1] := rfl

@[simp] theorem sftpNewClient_fs (w : World) : (sftpNewClient w).2.fs = w.fs := rfl

@[simp] theorem sftpNewClient_remote (w : World) : (sftpNewClient w).2.remote = w.remote := rfl

theorem ConnectToSFTP_run (initConfig : Config) :
    ∀ (fuel k : Nat) (w : World), k ≤ 3 → 4 - k ≤ fuel →
      ∃ r w2 t, ConnectToSFTP initConfig fuel (k : Int) w = some (r, w2) ∧
        ConnectRun w k r w2 t := by
  intro fuel
  induction fuel with
  | zero => intro k w hk hf; omega
  | succ fuel ih =>
    intro k w hk hf
    unfold ConnectToSFTP
    dsimp only
    have e1 : ((k : Int) + 1) = ((k + 1 : Nat) : Int) := by push_cast; rfl
    have hw := sshDial_trace initConfig.Server initConfig.User initConfig.Password w
    have hw2 := sftpNewClient_trace
      (sshDial initConfig.Server initConfig.User initConfig.Password w).2
    cases hd : (sshDial initConfig.Server initConfig.User initConfig.Password w).1 with
    | some e =>
      rw [hd] at hw
      dsimp only
      by_cases hk3 : k = 3
      · subst hk3
        refine ⟨none, (sshDial initConfig.Server initConfig.User initConfig.Password w).2,
          [Event.sshDial (some e)], by simp, ?_⟩
        constructor <;> simp [hw, Event.isDial, Event.isNewClient, Event.isFailure,
          Event.isTransfer, attemptsInOrder]
      · have hgt : ¬ ((k : Int) + 1 > 3) := by omega
        rw [if_neg hgt, e1]
        obtain ⟨r, w2, t, h1, h2⟩ := ih (k + 1)
          (sshDial initConfig.Server initConfig.User initConfig.Password w).2
          (by omega) (by omega)
        refine ⟨r, w2, Event.sshDial (some e) :: t, h1, ?_⟩
        have ht := h2.trace_eq
        have hfs := h2.fs_eq
        have hfl := h2.file_eq
        have hrm := h2.remote_eq
        have hdl := h2.dials_le
        have hcl := h2.clients_le
        have hex := h2.exhausted
        have hse := h2.session
        rw [hw] at ht
        constructor
        · simpa using ht
        · simpa using hfs
        · simpa using hfl
        · simpa using hrm
        · simp [Event.isDial]; omega
        · simp [Event.isNewClient]; omega
        · simpa [attemptsInOrder] using h2.in_order
        · intro x hx
          rcases List.mem_cons.mp hx with hx | hx
          · subst hx; rfl
          · exact h2.no_transfer x hx
        · intro hr; have := hex hr; simp [Event.isFailure]; omega
        · intro hr; have := hse hr; simp [Event.isFailure]; omega
    | none =>
      rw [hd] at hw
      rw [hw] at hw2
      dsimp only
      cases hc : (sftpNewClient
          (sshDial initConfig.Server initConfig.User initConfig.Password w).2).1 with
      | none =>
        rw [hc] at hw2
        refine ⟨some SftpClient.mk,
          (sftpNewClient (sshDial initConfig.Server initConfig.User initConfig.Password w).2).2,
          [Event.sshDial none, Event.sftpNewClient none], by simp, ?_⟩
        constructor <;> simp [hw2, Event.isDial, Event.isNewClient, Event.isFailure,
          Event.isTransfer, attemptsInOrder]
        all_goals omega
      | some e =>
        rw [hc] at hw2
        dsimp only
        by_cases hk3 : k = 3
        · subst hk3
          refine ⟨none,
            (sftpNewClient (sshDial initConfig.Server initConfig.User initConfig.Password w).2).2,
            [Event.sshDial none, Event.sftpNewClient (some e)], by simp, ?_⟩
          constructor <;> simp [hw2, Event.isDial, Event.isNewClient, Event.isFailure,
            Event.isTransfer, attemptsInOrder]
        · have hgt : ¬ ((k : Int) + 1 > 3) := by omega
          rw [if_neg hgt, e1]
          obtain ⟨r, w2, t, h1, h2⟩ := ih (k + 1)
            (sftpNewClient (sshDial initConfig.Server initConfig.User initConfig.Password w).2).2
            (by omega) (by omega)
          refine ⟨r, w2, Event.sshDial none :: Event.sftpNewClient (some e) :: t, h1, ?_⟩
          have ht := h2.trace_eq
          have hfs := h2.fs_eq
          have hfl := h2.file_eq
          have hrm := h2.remote_eq
          have hdl := h2.dials_le
          have hcl := h2.clients_le
          have hex := h2.exhausted
          have hse := h2.session
          rw [hw2] at ht
          constructor
          · simpa using ht
          · simpa using hfs
          · simpa using hfl
          · simpa using hrm
          · simp [Event.isDial]; omega
          · simp [Event.isNewClient]; omega
          · simpa [attemptsInOrder] using h2.in_order
          · intro x hx
            rcases List.mem_cons.mp hx with hx | hx
            · subst hx; rfl
            · rcases List.mem_cons.mp hx with hx | hx
              · subst hx; rfl
              · exact h2.no_transfer x hx
          · intro hr; have := hex hr; simp [Event.isFailure]; omega
          · intro hr; have := hse hr; simp [Event.isFailure]; omega

theorem ConnectToSFTP_fuel (initConfig : Config) :
    ∀ (fuel k : Nat) (w : World), k ≤ 3 → 4 - k ≤ fuel →
      ConnectToSFTP initConfig fuel (k : Int) w = ConnectToSFTP initConfig (4 - k) (k : Int) w := by
  intro fuel
  induction fuel with
  | zero => intro k w hk hf; omega
  | succ fuel ih =>
    intro k w hk hf
    have e1 : ((k : Int) + 1) = ((k + 1 : Nat) : Int) := by push_cast; rfl
    have e4 : 4 - k = (4 - (k + 1)) + 1 := by omega
    rw [e4]
    unfold ConnectToSFTP
    dsimp only
    by_cases hk3 : k = 3
    · subst hk3
      simp
    · have hgt : ¬ ((k : Int) + 1 > 3) := by omega
      simp only [if_neg hgt, e1]
      rw [ih (k + 1) (sshDial initConfig.Server initConfig.User initConfig.Password w).2
          (by omega) (by omega),
        ih (k + 1)
          (sftpNewClient (sshDial initConfig.Server initConfig.User initConfig.Password w).2).2
          (by omega) (by omega)]

theorem sshDial_of_fault (a u p : String) (w : World) (h : w.dialFault w.dials = true) :
    sshDial a u p w
      = (some Err.sshDial,
          { w with dials := w.dials + 1,
                   trace := w.trace ++ [Event.sshDial (some Err.sshDial)] }) := by
  unfold sshDial
  simp [h]

/-- When every dial fails, the connection logic that has `k` failures behind
it dials `4 - k` times, does nothing else, and gives up. -/
theorem ConnectToSFTP_all_dials_fail (initConfig : Config) :
    ∀ (fuel k : Nat) (w : World), k ≤ 3 → 4 - k ≤ fuel →
      (∀ j, w.dialFault (w.dials + j) = true) →
      ConnectToSFTP initConfig fuel (k : Int) w
        = some (none,
            { w with dials := w.dials + (4 - k),
                     trace := w.trace ++
                       List.replicate (4 - k) (Event.sshDial (some Err.sshDial)) }) := by
  intro fuel
  induction fuel with
  | zero => intro k w hk hf; omega
  | succ fuel ih =>
    intro k w hk hf hall
    have e1 : ((k : Int) + 1) = ((k + 1 : Nat) : Int) := by push_cast; rfl
    have h0 : w.dialFault w.dials = true := by simpa using hall 0
    unfold ConnectToSFTP
    dsimp only
    rw [sshDial_of_fault _ _ _ w h0]
    dsimp only
    by_cases hk3 : k = 3
    · subst hk3
      simp
    · have hgt : ¬ ((k : Int) + 1 > 3) := by omega
      rw [if_neg hgt, e1, ih (k + 1) _ (by omega) (by omega)]
      · have e4 : 4 - k = (4 - (k + 1)) + 1 := by omega
        rw [e4, List.replicate_succ]
        simp only [Option.some.injEq, Prod.mk.injEq, true_and, World.mk.injEq, and_true,
          List.append_assoc, List.singleton_append]
        omega
      · intro j
        have := hall (j + 1)
        simpa [Nat.add_assoc, Nat.add_comm 1 j] using this

theorem sftpNewClient_of_fault (w : World) (h : w.clientFault w.clients = true) :
    sftpNewClient w
      = (some Err.sftpNewClient,
          { w with clients := w.clients + 1,
                   trace := w.trace ++ [Event.sftpNewClient (some Err.sftpNewClient)] }) := by
  unfold sftpNewClient
  simp [h]

theorem sshDial_of_ok (a u p : String) (w : World) (h : w.dialFault w.dials = false) :
    sshDial a u p w
      = (none, { w with dials := w.dials + 1, trace := w.trace ++ [Event.sshDial none] }) := by
  unfold sshDial
  simp [h]

theorem failedAttempts_count (dialFault : Nat → Bool) :
    ∀ n d, (failedAttempts dialFault n d).countP Event.isDial = n ∧
      (failedAttempts dialFault n d).countP Event.isFailure = n ∧
      ∀ e ∈ failedAttempts dialFault n d, e.isTransfer = false := by
  intro n
  induction n with
  | zero => intro d; simp [failedAttempts]
  | succ n ih =>
    intro d
    obtain ⟨h1, h2, h3⟩ := ih (d + 1)
    unfold failedAttempts
    by_cases hd : dialFault d = true
    · simp only [hd, if_true]
      refine ⟨by simp [Event.isDial, h1], by simp [Event.isFailure, h2], ?_⟩
      intro e he
      rcases List.mem_cons.mp he with he | he
      · subst he; rfl
      · exact h3 e he
    · simp only [hd, Bool.false_eq_true, if_false]
      refine ⟨by simp [Event.isDial, h1], by simp [Event.isFailure, h2], ?_⟩
      intro e he
      rcases List.mem_cons.mp he with he | he
      · subst he; rfl
      · rcases List.mem_cons.mp he with he | he
        · subst he; rfl
        · exact h3 e he

/-- When the next `4 - k` attempts all fail, the connection logic that has `k`
failures behind it makes exactly these attempts and gives up. -/
theorem ConnectToSFTP_all_attempts_fail (initConfig : Config) :
    ∀ (fuel k : Nat) (w : World), k ≤ 3 → 4 - k ≤ fuel →
      attemptsFail w.dialFault w.clientFault (4 - k) w.dials w.clients = true →
      ∃ w2, ConnectToSFTP initConfig fuel (k : Int) w = some (none, w2) ∧
        w2.trace = w.trace ++ failedAttempts w.dialFault (4 - k) w.dials ∧
        w2.fs = w.fs ∧ w2.file = w.file ∧ w2.remote = w.remote := by
  intro fuel
  induction fuel with
  | zero => intro k w hk hf; omega
  | succ fuel ih =>
    intro k w hk hf hall
    have e1 : ((k : Int) + 1) = ((k + 1 : Nat) : Int) := by push_cast; rfl
    have e4 : 4 - k = (4 - (k + 1)) + 1 := by omega
    rw [e4] at hall ⊢
    unfold attemptsFail at hall
    unfold failedAttempts
    unfold ConnectToSFTP
    dsimp only
    by_cases hd : w.dialFault w.dials = true
    · simp only [hd, if_true] at hall ⊢
      rw [sshDial_of_fault _ _ _ w hd]
      dsimp only
      by_cases hk3 : k = 3
      · subst hk3
        refine ⟨{ w with dials := w.dials + 1,
                         trace := w.trace ++ [Event.sshDial (some Err.sshDial)] },
          by simp, by simp [failedAttempts], rfl, rfl, rfl⟩
      · have hgt : ¬ ((k : Int) + 1 > 3) := by omega
        rw [if_neg hgt, e1]
        obtain ⟨w2, g1, g2, g3, g4, g5⟩ := ih (k + 1)
          { w with dials := w.dials + 1,
                   trace := w.trace ++ [Event.sshDial (some Err.sshDial)] }
          (by omega) (by omega) hall
        exact ⟨w2, g1, by simpa using g2, g3, g4, g5⟩
    · have hd2 : w.dialFault w.dials = false := by simpa using hd
      simp only [hd2, Bool.false_eq_true, if_false, Bool.and_eq_true] at hall ⊢
      rw [sshDial_of_ok _ _ _ w hd2]
      dsimp only
      rw [sftpNewClient_of_fault
        { w with dials := w.dials + 1, trace := w.trace ++ [Event.sshDial none] } hall.1]
      dsimp only
      by_cases hk3 : k = 3
      · subst hk3
        refine ⟨{ w with dials := w.dials + 1, clients := w.clients + 1,
                         trace := w.trace ++ [Event.sshDial none] ++
                           [Event.sftpNewClient (some Err.sftpNewClient)] },
          by simp, by simp [failedAttempts], rfl, rfl, rfl⟩
      · have hgt : ¬ ((k : Int) + 1 > 3) := by omega
        rw [if_neg hgt, e1]
        obtain ⟨w2, g1, g2, g3, g4, g5⟩ := ih (k + 1)
          { w with dials := w.dials + 1, clients := w.clients + 1,
                   trace := w.trace ++ [Event.sshDial none] ++
                     [Event.sftpNewClient (some Err.sftpNewClient)] }
          (by omega) (by omega) hall.2
        exact ⟨w2, g1, by simpa using g2, g3, g4, g5⟩

/-! ### The upload loop and the staged files -/

theorem uploadStep_trace (initConfig : Config) (c : SftpClient) (w : World) (f : FileInfo) :
    ∃ r : Option Err × Option Err,
      (uploadStep initConfig c w f).trace = w.trace ++ uploadEvents initConfig f r := by
  cases h : uploadResult initConfig c w f with
  | none => exact ⟨_, (uploadStep_of_ok initConfig c w f h).2.1⟩
  | some e => exact ⟨_, (uploadStep_of_failed initConfig c w f e h).2.1⟩

theorem foldl_uploadStep (initConfig : Config) (c : SftpClient) :
    ∀ (fileList : List FileInfo) (w : World),
      ∃ rs : List (Option Err × Option Err), rs.length = fileList.length ∧
        (fileList.foldl (uploadStep initConfig c) w).trace
          = w.trace ++ (List.zipWith (uploadEvents initConfig) fileList rs).flatten := by
  intro fileList
  induction fileList with
  | nil => intro w; exact ⟨[], by simp⟩
  | cons f fileList ih =>
    intro w
    obtain ⟨r, hr⟩ := uploadStep_trace initConfig c w f
    obtain ⟨rs, h1, h2⟩ := ih (uploadStep initConfig c w f)
    refine ⟨r :: rs, by simp [h1], ?_⟩
    rw [List.foldl_cons, h2, hr]
    simp

theorem moveToDest_keeps_other (src dst : String) (w : World) (f : String)
    (hf : f ≠ w.file src) (h : w.fs f ≠ none) : (moveToDest src dst w).2.fs f ≠ none := by
  rcases moveToDest_outcome src dst w with ⟨_, h2⟩ | ⟨b, _, hh⟩
  · rw [h2]; exact h
  · rcases hh with ⟨_, h2⟩ | ⟨_, k, h2⟩ | ⟨_, h2⟩ | ⟨_, h2⟩
    · rw [h2]; exact h
    · rw [h2]; by_cases hd : f = w.file dst <;> simp [hd, h]
    · rw [h2]; by_cases hd : f = w.file dst <;> simp [hd, h]
    · rw [h2]
      by_cases hd : f = w.file dst
      · simp [← hd, hf]
      · simp [hf, hd, h]

theorem moveToDest_ok_dst (src dst : String) (w : World) (hne : w.file src ≠ w.file dst)
    (h : (moveToDest src dst w).1 = none) :
    (moveToDest src dst w).2.fs (w.file dst) ≠ none := by
  have hds : w.file dst ≠ w.file src := fun hh => hne hh.symm
  rcases moveToDest_outcome src dst w with ⟨h1, _⟩ | ⟨b, _, hh⟩
  · rw [h1] at h; simp at h
  · rcases hh with ⟨h1, _⟩ | ⟨h1, _⟩ | ⟨h1, _⟩ | ⟨_, h2⟩
    · rw [h1] at h; simp at h
    · rw [h1] at h; simp at h
    · rw [h1] at h; simp at h
    · rw [h2]; simp [hds]

theorem scanStep_file (initConfig : Config) (st : List FileInfo × World) (e : FileInfo) :
    (scanStep initConfig st e).2.file = st.2.file := by
  unfold scanStep
  dsimp only
  repeat' split
  all_goals simp [callMoveToDest_file]

theorem foldl_scanStep_file (initConfig : Config) :
    ∀ (files : List FileInfo) (st : List FileInfo × World),
      (files.foldl (scanStep initConfig) st).2.file = st.2.file := by
  intro files
  induction files with
  | nil => intro st; rfl
  | cons e files ih =>
    intro st
    rw [List.foldl_cons, ih, scanStep_file]

theorem scan_file (initConfig : Config) (files : List FileInfo) (w : World) :
    (scan initConfig files w).2.file = w.file := by
  rw [scan_eq_foldl, foldl_scanStep_file]

theorem scanStep_staged (initConfig : Config) (all : List FileInfo) (w0 : World)
    (H : StagesApart initConfig all w0) (st : List FileInfo × World) (e : FileInfo)
    (he : e ∈ all) (hfile : st.2.file = w0.file)
    (hst : ∀ f ∈ st.1,
      f ∈ all ∧ st.2.fs (w0.file (initConfig.ProcessingFolder ++ f.Name)) ≠ none) :
    ∀ f ∈ (scanStep initConfig st e).1,
      f ∈ all ∧ (scanStep initConfig st e).2.fs
        (w0.file (initConfig.ProcessingFolder ++ f.Name)) ≠ none := by
  by_cases hsel : Selected initConfig e
  · have hsel2 := (selected_iff initConfig e).mp hsel
    obtain ⟨hd, hv⟩ := hsel2
    unfold scanStep
    simp only [hd, hv, Bool.false_eq_true, if_false, Bool.not_true]
    have hkeep : ∀ f ∈ st.1, f ∈ all ∧
        (callMoveToDest (initConfig.CollectionFolder ++ e.Name)
          (initConfig.ProcessingFolder ++ e.Name) st.2).2.fs
            (w0.file (initConfig.ProcessingFolder ++ f.Name)) ≠ none := by
      intro f hf
      refine ⟨(hst f hf).1, ?_⟩
      rw [callMoveToDest_fs]
      refine moveToDest_keeps_other _ _ _ _ ?_ (hst f hf).2
      rw [hfile]
      exact fun hh => H e he f (hst f hf).1 hh.symm
    cases hr : (callMoveToDest (initConfig.CollectionFolder ++ e.Name)
      (initConfig.ProcessingFolder ++ e.Name) st.2).1 with
    | some err => exact hkeep
    | none =>
      intro f hf
      rcases List.mem_append.mp hf with hf | hf
      · exact hkeep f hf
      · have hfe : f = e := by simpa using hf
        subst hfe
        refine ⟨he, ?_⟩
        rw [callMoveToDest_fs, ← hfile]
        refine moveToDest_ok_dst _ _ _ ?_ (by rw [← callMoveToDest_fst]; exact hr)
        rw [hfile]
        exact H f he f he
  · rw [scanStep_of_not_selected initConfig st e hsel]
    exact hst

theorem foldl_scanStep_staged (initConfig : Config) (all : List FileInfo) (w0 : World)
    (H : StagesApart initConfig all w0) :
    ∀ (files : List FileInfo) (st : List FileInfo × World), (∀ e ∈ files, e ∈ all) →
      st.2.file = w0.file →
      (∀ f ∈ st.1,
        f ∈ all ∧ st.2.fs (w0.file (initConfig.ProcessingFolder ++ f.Name)) ≠ none) →
      ∀ f ∈ (files.foldl (scanStep initConfig) st).1,
        f ∈ all ∧ (files.foldl (scanStep initConfig) st).2.fs
          (w0.file (initConfig.ProcessingFolder ++ f.Name)) ≠ none := by
  intro files
  induction files with
  | nil => intro st _ _ hst; simpa using hst
  | cons e files ih =>
    intro st hall hfile hst
    rw [List.foldl_cons]
    exact ih _ (fun x hx => hall x (List.mem_cons_of_mem _ hx))
      (by rw [scanStep_file, hfile])
      (scanStep_staged initConfig all w0 H st e (hall e (List.mem_cons_self _ _)) hfile hst)

theorem scan_staged (initConfig : Config) (files : List FileInfo) (w : World)
    (H : StagesApart initConfig files w) :
    ∀ f ∈ (scan initConfig files w).1,
      (scan initConfig files w).2.read (initConfig.ProcessingFolder ++ f.Name) ≠ none := by
  intro f hf
  unfold World.read
  rw [scan_file]
  rw [scan_eq_foldl] at hf ⊢
  exact (foldl_scanStep_staged initConfig files w H files ([], w) (fun _ h => h) rfl
    (by simp) f hf).2

theorem foldl_scanStep_remote (initConfig : Config) :
    ∀ (files : List FileInfo) (st : List FileInfo × World),
      (files.foldl (scanStep initConfig) st).2.remote = st.2.remote := by
  intro files
  induction files with
  | nil => intro st; rfl
  | cons e files ih =>
    intro st
    rw [List.foldl_cons, ih]
    unfold scanStep
    dsimp only
    repeat' split
    all_goals simp [callMoveToDest_remote]

/-! ## C1, C2: the scan -/

/-- C1: whatever the listing, the filters and the world, the calls of
`moveToDest` that the scan makes are, in order, one for each entry that is
not a directory and whose name contains one of the filter strings, from the
collection path to the processing path of that entry, and no other; with an
empty filter list nothing is staged, and nothing is staged from a listing of
directories whatever their names. -/
theorem scan_stages_exactly_the_selected (initConfig : Config) (files : List FileInfo)
    (w : World) :
    (∃ rs : List (Option Err),
      rs.length = (files.filter (fun e => decide (Selected initConfig e))).length ∧
      (scan initConfig files w).2.trace
        = w.trace ++ List.zipWith (stagingEvent initConfig)
            (files.filter (fun e => decide (Selected initConfig e))) rs) ∧
    (scan { initConfig with FileNameFilter := [] } files w).2.trace = w.trace ∧
    (scan initConfig (files.map (fun e => { e with IsDir := true })) w).2.trace = w.trace := by
  refine ⟨?_, ?_, ?_⟩
  · obtain ⟨rs, h0, h1, _, _⟩ := foldl_scanStep initConfig files ([], w)
    rw [scan_eq_foldl]
    exact ⟨rs, h0, h1⟩
  · obtain ⟨rs, h0, h1, _, _⟩ :=
      foldl_scanStep { initConfig with FileNameFilter := [] } files ([], w)
    rw [scan_eq_foldl, h1]
    have hnone : files.filter
        (fun e => decide (Selected { initConfig with FileNameFilter := [] } e)) = [] := by
      rw [List.filter_eq_nil_iff]
      intro e _
      simp [Selected]
    simp [hnone]
  · obtain ⟨rs, h0, h1, _, _⟩ :=
      foldl_scanStep initConfig (files.map (fun e => { e with IsDir := true })) ([], w)
    rw [scan_eq_foldl, h1]
    have hnone : (files.map (fun e => { e with IsDir := true })).filter
        (fun e => decide (Selected initConfig e)) = [] := by
      rw [List.filter_eq_nil_iff]
      intro e he
      obtain ⟨e0, _, rfl⟩ := List.mem_map.mp he
      simp [Selected]
    simp [hnone]

/-- C2: the work list built by the scan is the listing restricted to the
selected entries whose staging move returned no error, in the order of the
listing; `rs` are the values the staging moves returned, one for every
selected entry, so a failed move drops only its own entry and the entries
after it are still staged. -/
theorem scan_work_list (initConfig : Config) (files : List FileInfo) (w : World) :
    ∃ rs : List (Option Err),
      rs.length = (files.filter (fun e => decide (Selected initConfig e))).length ∧
      (scan initConfig files w).2.trace
        = w.trace ++ List.zipWith (stagingEvent initConfig)
            (files.filter (fun e => decide (Selected initConfig e))) rs ∧
      (scan initConfig files w).1
        = succeeded (files.filter (fun e => decide (Selected initConfig e))) rs := by
  obtain ⟨rs, h0, h1, h2, _⟩ := foldl_scanStep initConfig files ([], w)
  rw [scan_eq_foldl]
  exact ⟨rs, h0, h1, by simpa using h2⟩

/-! ## C3, C10, C9: the connection logic -/

/-- C3, counterexample: with `ConnectRetry` set to 0 and every dial failing,
`main` still dials four times before it gives up, not once. -/
theorem connect_ignores_ConnectRetry :
    (Config.example "c/" "p/" "d/" ["a"] 0).ConnectRetry = 0 ∧
    (main 8 (Config.example "c/" "p/" "d/" ["a"] 0) (some [⟨"a", false⟩])
        (World.start (oneFile "c/a") [] (fun _ => true) (fun _ => false))).map
      (fun r => (r.1, r.2.trace.countP Event.isDial)) = some (Exit.connectionExhausted, 4) := by
  decide

/-- C3, amended: whatever the configuration, `ConnectRetry` included, when the
work list is not empty and every connection attempt fails, at the dial or at
the session open, `main` makes exactly three retries after the first failed
attempt (four dials in all, each followed by a session open only when the dial
succeeded) and then ends with "Maximum connection retry attempt exceeded",
having made no other call and changed no file. -/
theorem connect_retries_three_times (initConfig : Config) (files : List FileInfo) (w : World)
    (fuel : Nat) (hfuel : 4 ≤ fuel) (hne : (scan initConfig files w).1 ≠ [])
    (hall : attemptsFail w.dialFault w.clientFault 4 w.dials w.clients = true) :
    ∃ w2, main fuel initConfig (some files) w = some (Exit.connectionExhausted, w2) ∧
      w2.trace = (scan initConfig files w).2.trace ++ failedAttempts w.dialFault 4 w.dials ∧
      (failedAttempts w.dialFault 4 w.dials).countP Event.isDial = 4 ∧
      (failedAttempts w.dialFault 4 w.dials).countP Event.isFailure = 4 ∧
      w2.fs = (scan initConfig files w).2.fs ∧
      w2.remote = (scan initConfig files w).2.remote := by
  have hnet : (scan initConfig files w).2.net = w.net := by
    rw [scan_eq_foldl]
    exact (foldl_scanStep initConfig files ([], w)).choose_spec.2.2.2
  simp only [World.net, Prod.mk.injEq] at hnet
  obtain ⟨n1, n2, n3, n4⟩ := hnet
  have hlen : ¬ (scan initConfig files w).1.length < 1 := by
    cases hl : (scan initConfig files w).1 with
    | nil => exact absurd hl hne
    | cons a l => simp
  obtain ⟨w2, g1, g2, g3, _, g5⟩ :=
    ConnectToSFTP_all_attempts_fail initConfig fuel 0 (scan initConfig files w).2
      (by omega) (by omega) (by rw [n1, n2, n3, n4]; exact hall)
  have e0 : ((0 : Nat) : Int) = 0 := rfl
  rw [e0] at g1
  rw [n1, n2] at g2
  refine ⟨w2, ?_, g2, (failedAttempts_count w.dialFault 4 w.dials).1,
    (failedAttempts_count w.dialFault 4 w.dials).2.1, g3, g5⟩
  unfold main
  simp only [hlen, if_false, g1]

/-- C3, witness: the amended statement for a configuration with `ConnectRetry`
set to 7 and a world in which the first and third dial fail and, after the
second and the fourth dial, the session open fails. -/
theorem connect_retries_three_times_witness :
    ∃ w2, main 4 (Config.example "c/" "p/" "d/" ["a"] 7) (some [⟨"a", false⟩])
        (World.start (oneFile "c/a") [] (fun k => decide (k % 2 = 0)) (fun _ => true))
        = some (Exit.connectionExhausted, w2) ∧
      w2.trace
        = [Event.moveToDest "c/a" "p/a" none,
           Event.sshDial (some Err.sshDial),
           Event.sshDial none, Event.sftpNewClient (some Err.sftpNewClient),
           Event.sshDial (some Err.sshDial),
           Event.sshDial none, Event.sftpNewClient (some Err.sftpNewClient)] :=
  (connect_retries_three_times (Config.example "c/" "p/" "d/" ["a"] 7) [⟨"a", false⟩]
    (World.start (oneFile "c/a") [] (fun k => decide (k % 2 = 0)) (fun _ => true)) 4
    (by decide) (by decide) (by decide)).elim
    fun w2 h => ⟨w2, h.1, h.2.1.trans (by decide)⟩

/-- C10: for every outcome of every dial and session open, the connection
logic ends, with the same result for any fuel of at least four rounds: it
makes at most four dials and at most four session opens, a session open comes
only right after a successful dial, each failure of either step starts the
two steps afresh, and it ends with a session after fewer than four failures
or gives up at the fourth failure. -/
theorem connection_logic_terminates (initConfig : Config) (w : World) :
    ∃ (r : Option SftpClient) (w2 : World) (t : List Event),
      (∀ fuel, 4 ≤ fuel → ConnectToSFTP initConfig fuel 0 w = some (r, w2)) ∧
      w2.trace = w.trace ++ t ∧
      t.countP Event.isDial ≤ 4 ∧
      t.countP Event.isNewClient ≤ 4 ∧
      attemptsInOrder t = true ∧
      (r = none → t.countP Event.isFailure = 4) ∧
      (r ≠ none → t.countP Event.isFailure ≤ 3) := by
  obtain ⟨r, w2, t, h1, h2⟩ := ConnectToSFTP_run initConfig 4 0 w (by omega) (by omega)
  refine ⟨r, w2, t, ?_, h2.trace_eq, by simpa using h2.dials_le, by simpa using h2.clients_le,
    h2.in_order, fun hr => by simpa using h2.exhausted hr, fun hr => by simpa using h2.session hr⟩
  intro fuel hfuel
  have hf := ConnectToSFTP_fuel initConfig fuel 0 w (by omega) (by omega)
  have e0 : ((0 : Nat) : Int) = 0 := rfl
  rw [e0] at hf h1
  rw [hf]
  exact h1

/-- C10, witness: the statement for a world in which the first two dials fail
and the first session open fails. -/
theorem connection_logic_terminates_witness :
    ∃ (r : Option SftpClient) (w2 : World) (t : List Event),
      (∀ fuel, 4 ≤ fuel →
        ConnectToSFTP (Config.example "c/" "p/" "d/" ["a"] 3) fuel 0
          (World.start (oneFile "p/a") [] (fun k => decide (k < 2)) (fun k => decide (k < 1)))
          = some (r, w2)) ∧
      w2.trace
        = (World.start (oneFile "p/a") [] (fun k => decide (k < 2))
            (fun k => decide (k < 1))).trace ++ t ∧
      t.countP Event.isDial ≤ 4 ∧
      t.countP Event.isNewClient ≤ 4 ∧
      attemptsInOrder t = true ∧
      (r = none → t.countP Event.isFailure = 4) ∧
      (r ≠ none → t.countP Event.isFailure ≤ 3) :=
  connection_logic_terminates (Config.example "c/" "p/" "d/" ["a"] 3)
    (World.start (oneFile "p/a") [] (fun k => decide (k < 2)) (fun k => decide (k < 1)))

/-- C9, counterexample: with the collection folder also given as processing
folder, the scan stages `c/a` onto itself: the move returns `nil`, the file
is in the work list and is gone.  Every dial then fails, the run ends at the
exhaustion return, and the work-list file is neither at its processing path
nor anywhere else. -/
theorem exhausted_run_after_lost_staging :
    (Config.example "c/" "c/" "d/" ["a"] 3).ProcessingFolder ++ "a" = "c/a" ∧
    (scan (Config.example "c/" "c/" "d/" ["a"] 3) [⟨"a", false⟩]
        (World.start (oneFile "c/a") [] (fun _ => true) (fun _ => false))).1
      = [⟨"a", false⟩] ∧
    (main 4 (Config.example "c/" "c/" "d/" ["a"] 3) (some [⟨"a", false⟩])
        (World.start (oneFile "c/a") [] (fun _ => true) (fun _ => false))).map
      (fun r => (r.1, r.2.read "c/a", r.2.read "d/a"))
      = some (Exit.connectionExhausted, none, none) := by
  decide

/-- C9, amended: in a run with a non-empty work list whose connection logic
gives up, `main` ends at the "Maximum connection retry attempt exceeded"
return; after the scan it has called neither `sftpUpload` nor `moveToDest`,
and the local and remote files are as the scan left them.  Every file of the
work list is then still at the path `ProcessingFolder + name` it was staged
to, provided no collection path of the listing names the same file as a
processing path of the listing. -/
theorem exhausted_run_transfers_nothing (initConfig : Config) (files : List FileInfo)
    (w w2 : World) (fuel : Nat) (hfuel : 4 ≤ fuel) (hne : (scan initConfig files w).1 ≠ [])
    (hex : ConnectToSFTP initConfig fuel 0 (scan initConfig files w).2 = some (none, w2)) :
    main fuel initConfig (some files) w = some (Exit.connectionExhausted, w2) ∧
    (∃ t, w2.trace = (scan initConfig files w).2.trace ++ t ∧ ∀ e ∈ t, e.isTransfer = false) ∧
    w2.fs = (scan initConfig files w).2.fs ∧
    w2.file = w.file ∧
    w2.remote = (scan initConfig files w).2.remote ∧
    (StagesApart initConfig files w →
      ∀ f ∈ (scan initConfig files w).1,
        w2.read (initConfig.ProcessingFolder ++ f.Name) ≠ none) := by
  have hlen : ¬ (scan initConfig files w).1.length < 1 := by
    cases hl : (scan initConfig files w).1 with
    | nil => exact absurd hl hne
    | cons a l => simp
  obtain ⟨r, w3, t, h1, h2⟩ :=
    ConnectToSFTP_run initConfig fuel 0 (scan initConfig files w).2 (by omega) (by omega)
  have e0 : ((0 : Nat) : Int) = 0 := rfl
  rw [e0, hex] at h1
  have hr : r = none := by
    have := congrArg (fun x => x.map Prod.fst) h1
    simpa using this.symm
  have hw : w3 = w2 := by
    have := congrArg (fun x => x.map Prod.snd) h1
    simpa using this.symm
  subst hw
  have hfile : w3.file = w.file := by rw [h2.file_eq, scan_file]
  refine ⟨?_, ⟨t, h2.trace_eq, h2.no_transfer⟩, h2.fs_eq, hfile, h2.remote_eq, ?_⟩
  · unfold main
    simp only [hlen, if_false, hex]
  · intro H f hf
    have hs := scan_staged initConfig files w H f hf
    unfold World.read at hs ⊢
    rw [h2.fs_eq, h2.file_eq]
    exact hs

/-- C9, witness: the amended statement for a run that stages `c/a` to `p/a`
and in which every dial fails. -/
theorem exhausted_run_transfers_nothing_witness :
    ∃ w2, main 4 (Config.example "c/" "p/" "d/" ["a"] 3) (some [⟨"a", false⟩])
        (World.start (oneFile "c/a") [] (fun _ => true) (fun _ => false))
        = some (Exit.connectionExhausted, w2) ∧
      w2.read "p/a" ≠ none :=
  have h := exhausted_run_transfers_nothing (Config.example "c/" "p/" "d/" ["a"] 3)
    [⟨"a", false⟩] (World.start (oneFile "c/a") [] (fun _ => true) (fun _ => false)) _ 4
    (by decide) (by decide)
    (ConnectToSFTP_all_dials_fail (Config.example "c/" "p/" "d/" ["a"] 3) 4 0 _ (by decide)
      (by decide) (fun _ => rfl))
  ⟨_, h.1, h.2.2.2.2.2 (by unfold StagesApart; decide) ⟨"a", false⟩ (by decide)⟩

/-! ## C4: moveToDest never loses the bytes of the source -/

/-- C4, counterexample: when `src` and `dst` name the same file, by the same
path string or by two spellings such as `c/a` and `./c/a`, or `c/a` and the
absolute `/c/a` from the root as working directory, `os.Create` truncates the
file before the copy reads it; `moveToDest` returns `nil` and the file, with
its bytes, is gone from both paths. -/
theorem moveToDest_same_file_loses_bytes :
    (World.start (oneFile "c/a") [] (fun _ => false) (fun _ => false)).read "c/a"
      = some [1, 2, 3] ∧
    (moveToDest "c/a" "c/a"
      (World.start (oneFile "c/a") [] (fun _ => false) (fun _ => false))).1 = none ∧
    (moveToDest "c/a" "c/a"
      (World.start (oneFile "c/a") [] (fun _ => false) (fun _ => false))).2.read "c/a" = none ∧
    (moveToDest "c/a" "./c/a"
      (World.start (oneFile "c/a") [] (fun _ => false) (fun _ => false))).1 = none ∧
    (moveToDest "c/a" "./c/a"
      (World.start (oneFile "c/a") [] (fun _ => false) (fun _ => false))).2.read "c/a" = none ∧
    (moveToDest "c/a" "./c/a"
      (World.start (oneFile "c/a") [] (fun _ => false) (fun _ => false))).2.read "./c/a"
      = none ∧
    (moveToDest "c/a" "/c/a"
      (World.start (oneFile "c/a") [] (fun _ => false) (fun _ => false))).1 = none ∧
    (moveToDest "c/a" "/c/a"
      (World.start (oneFile "c/a") [] (fun _ => false) (fun _ => false))).2.read "c/a"
      = none := by
  decide

/-- C4, amended: for paths `src` and `dst` that do not name the same file, a
source holding `bytes` and any choice of failing calls, after
`moveToDest src dst` the bytes are still held in full at `src` or at `dst`.
The call returns `nil` or the error of the open, the create, the copy or the
remove; after a failed open, create or copy `src` still holds the bytes,
after a failed remove both `src` and `dst` hold them, and after success `dst`
holds them and `src` names no file. -/
theorem moveToDest_keeps_bytes (src dst : String) (w : World) (bytes : List Nat)
    (hne : w.file src ≠ w.file dst) (hs : w.read src = some bytes) :
    ((moveToDest src dst w).2.read src = some bytes ∨
      (moveToDest src dst w).2.read dst = some bytes) ∧
    ((moveToDest src dst w).1 = none ∨ (moveToDest src dst w).1 = some Err.osOpen ∨
      (moveToDest src dst w).1 = some Err.osCreate ∨ (moveToDest src dst w).1 = some Err.ioCopy ∨
      (moveToDest src dst w).1 = some Err.osRemove) ∧
    ((moveToDest src dst w).1 = some Err.osOpen ∨ (moveToDest src dst w).1 = some Err.osCreate ∨
        (moveToDest src dst w).1 = some Err.ioCopy →
      (moveToDest src dst w).2.read src = some bytes) ∧
    ((moveToDest src dst w).1 = some Err.osRemove →
      (moveToDest src dst w).2.read src = some bytes ∧
      (moveToDest src dst w).2.read dst = some bytes) ∧
    ((moveToDest src dst w).1 = none →
      (moveToDest src dst w).2.read src = none ∧
      (moveToDest src dst w).2.read dst = some bytes) :=
  moveToDest_distinct src dst w bytes hne hs

/-- C4, witness: the amended statement applied to a move whose remove fails. -/
theorem moveToDest_keeps_bytes_witness :
    ((moveToDest "c/a" "p/a"
        (World.start (oneFile "c/a") [6] (fun _ => false) (fun _ => false))).1
      = some Err.osRemove) ∧
    ((moveToDest "c/a" "p/a"
        (World.start (oneFile "c/a") [6] (fun _ => false) (fun _ => false))).2.read "c/a"
      = some [1, 2, 3]) ∧
    ((moveToDest "c/a" "p/a"
        (World.start (oneFile "c/a") [6] (fun _ => false) (fun _ => false))).2.read "p/a"
      = some [1, 2, 3]) :=
  have h := moveToDest_keeps_bytes "c/a" "p/a"
    (World.start (oneFile "c/a") [6] (fun _ => false) (fun _ => false)) [1, 2, 3]
    (by decide) (by decide)
  have hr : (moveToDest "c/a" "p/a"
      (World.start (oneFile "c/a") [6] (fun _ => false) (fun _ => false))).1
      = some Err.osRemove := by decide
  ⟨hr, (h.2.2.2.1 hr).1, (h.2.2.2.1 hr).2⟩

/-! ## C5: relocation to the done folder after a successful upload -/

/-- C5, counterexample: the upload of `p/a` succeeds and the relocation fails
at the remove of the processing copy; the file is then held in full both in
processing and in done. -/
theorem relocation_remove_failure_duplicates :
    uploadResult (Config.example "c/" "p/" "d/" ["a"] 3) SftpClient.mk
      (World.start (oneFile "p/a") [11] (fun _ => false) (fun _ => false)) ⟨"a", false⟩ = none ∧
    relocationResult (Config.example "c/" "p/" "d/" ["a"] 3) SftpClient.mk
      (World.start (oneFile "p/a") [11] (fun _ => false) (fun _ => false)) ⟨"a", false⟩
        = some Err.osRemove ∧
    (uploadStep (Config.example "c/" "p/" "d/" ["a"] 3) SftpClient.mk
      (World.start (oneFile "p/a") [11] (fun _ => false) (fun _ => false)) ⟨"a", false⟩).fs "p/a"
        = some [1, 2, 3] ∧
    (uploadStep (Config.example "c/" "p/" "d/" ["a"] 3) SftpClient.mk
      (World.start (oneFile "p/a") [11] (fun _ => false) (fun _ => false)) ⟨"a", false⟩).fs "d/a"
        = some [1, 2, 3] := by
  decide

/-- C5, amended: for a work item whose upload succeeded and whose done path
does not name the same file as its processing path, the processing file held
some `bytes`, and after the round of the upload loop: if the relocation
succeeded the done path holds `bytes` and the processing path names no file;
if the relocation failed the processing path still holds `bytes`; in that
case the done path is untouched when the open or the create failed, holds the
first bytes of the file when the copy was interrupted, and holds a full copy
as well when the remove of the processing copy failed. -/
theorem relocation_after_upload (initConfig : Config) (c : SftpClient) (w : World)
    (f : FileInfo) (hup : uploadResult initConfig c w f = none)
    (hne : w.file (srcFile initConfig f) ≠ w.file (doneFile initConfig f)) :
    ∃ bytes, w.read (srcFile initConfig f) = some bytes ∧
      (relocationResult initConfig c w f = none →
        (uploadStep initConfig c w f).read (doneFile initConfig f) = some bytes ∧
        (uploadStep initConfig c w f).read (srcFile initConfig f) = none) ∧
      (relocationResult initConfig c w f ≠ none →
        (uploadStep initConfig c w f).read (srcFile initConfig f) = some bytes) ∧
      (relocationResult initConfig c w f = some Err.osOpen ∨
          relocationResult initConfig c w f = some Err.osCreate →
        (uploadStep initConfig c w f).read (doneFile initConfig f)
          = w.read (doneFile initConfig f)) ∧
      (relocationResult initConfig c w f = some Err.ioCopy →
        ∃ k, (uploadStep initConfig c w f).read (doneFile initConfig f)
          = some (bytes.take k)) ∧
      (relocationResult initConfig c w f = some Err.osRemove →
        (uploadStep initConfig c w f).read (doneFile initConfig f) = some bytes) := by
  obtain ⟨bytes, hb⟩ := sftpUpload_ok_src c (dstFile initConfig f) (srcFile initConfig f) w hup
  refine ⟨bytes, hb, ?_⟩
  have hfs := (uploadStep_of_ok initConfig c w f hup).1
  have hfile := (uploadStep_of_ok initConfig c w f hup).2.2.2
  have hb2 : (sftpUpload c (dstFile initConfig f) (srcFile initConfig f) w).2.read
      (srcFile initConfig f) = some bytes := by
    unfold World.read at hb ⊢
    rw [sftpUpload_fs, sftpUpload_file]; exact hb
  have hne2 : (sftpUpload c (dstFile initConfig f) (srcFile initConfig f) w).2.file
      (srcFile initConfig f)
      ≠ (sftpUpload c (dstFile initConfig f) (srcFile initConfig f) w).2.file
        (doneFile initConfig f) := by
    rw [sftpUpload_file]; exact hne
  have hk := moveToDest_distinct (srcFile initConfig f) (doneFile initConfig f)
    (sftpUpload c (dstFile initConfig f) (srcFile initConfig f) w).2 bytes hne2 hb2
  have ho := moveToDest_outcome (srcFile initConfig f) (doneFile initConfig f)
    (sftpUpload c (dstFile initConfig f) (srcFile initConfig f) w).2
  unfold relocationResult
  simp only [World.read, moveToDest_file, sftpUpload_file, sftpUpload_fs] at hk ho hb hb2 ⊢
  rw [hfs, hfile]
  obtain ⟨_, k1, k2, k3, k4⟩ := hk
  refine ⟨fun h => ⟨(k4 h).2, (k4 h).1⟩, ?_, ?_, ?_, fun h => (k3 h).2⟩
  · intro h
    rcases k1 with k | k | k | k | k
    · exact absurd k h
    · exact k2 (Or.inl k)
    · exact k2 (Or.inr (Or.inl k))
    · exact k2 (Or.inr (Or.inr k))
    · exact (k3 k).1
  · intro h
    rcases ho with ⟨_, h2⟩ | ⟨b, _, hh⟩
    · rw [h2]
    · rcases hh with ⟨_, h2⟩ | ⟨h1, _⟩ | ⟨h1, _⟩ | ⟨h1, _⟩
      · rw [h2]
      · rw [h1] at h; simp at h
      · rw [h1] at h; simp at h
      · rw [h1] at h; simp at h
  · intro h
    rcases ho with ⟨h1, _⟩ | ⟨b, hb3, hh⟩
    · rw [h1] at h; simp at h
    · have hbb : b = bytes := by
        rw [hb2] at hb3
        exact (Option.some.inj hb3).symm
      subst hbb
      rcases hh with ⟨h1, _⟩ | ⟨_, k, h2⟩ | ⟨h1, _⟩ | ⟨h1, _⟩
      · rw [h1] at h; simp at h
      · exact ⟨k, by simp [h2, readAfterCreate, hne]⟩
      · rw [h1] at h; simp at h
      · rw [h1] at h; simp at h

/-- C5, witness: the amended statement applied to an upload of `p/a` that is
followed by a successful relocation to `d/a`. -/
theorem relocation_after_upload_witness :
    ∃ bytes, (World.start (oneFile "p/a") [] (fun _ => false) (fun _ => false)).read "p/a"
        = some bytes ∧
      (uploadStep (Config.example "c/" "p/" "d/" ["a"] 3) SftpClient.mk
        (World.start (oneFile "p/a") [] (fun _ => false) (fun _ => false))
          ⟨"a", false⟩).read "d/a" = some bytes ∧
      (uploadStep (Config.example "c/" "p/" "d/" ["a"] 3) SftpClient.mk
        (World.start (oneFile "p/a") [] (fun _ => false) (fun _ => false))
          ⟨"a", false⟩).read "p/a" = none :=
  have h := relocation_after_upload (Config.example "c/" "p/" "d/" ["a"] 3) SftpClient.mk
    (World.start (oneFile "p/a") [] (fun _ => false) (fun _ => false)) ⟨"a", false⟩
    (by decide) (by decide)
  h.elim fun bytes hb => ⟨bytes, hb.1, hb.2.1 (by decide)⟩

/-! ## C6: the upload loop -/

/-- C6: whatever the work list, the world and so the outcome of every upload
and relocation, the upload loop adds to the record, for each work item in
order, one call of `sftpUpload` on that item, followed by one call of
`moveToDest` from its processing path to its done path exactly when that
upload returned `nil`; and a round whose upload failed leaves every local
file as it was. -/
theorem uploadLoop_attempts_every_item (initConfig : Config) (c : SftpClient)
    (fileList : List FileInfo) (w : World) :
    (∃ rs : List (Option Err × Option Err), rs.length = fileList.length ∧
      (uploadLoop initConfig c fileList w).trace
        = w.trace ++ (List.zipWith (uploadEvents initConfig) fileList rs).flatten) ∧
    ∀ (w1 : World) (f : FileInfo) (e : Err), uploadResult initConfig c w1 f = some e →
      (uploadStep initConfig c w1 f).fs = w1.fs ∧
      (uploadStep initConfig c w1 f).trace
        = w1.trace ++ [Event.sftpUpload (dstFile initConfig f) (srcFile initConfig f) (some e)] := by
  refine ⟨foldl_uploadStep initConfig c fileList w, ?_⟩
  intro w1 f e he
  have h := uploadStep_of_failed initConfig c w1 f e he
  exact ⟨h.1, by simpa [uploadEvents] using h.2.1⟩

/-- C6, witness: the statement for a work list of two items of which the
first is missing from the processing folder: its upload fails, nothing is
moved for it, and the second item is uploaded and relocated. -/
theorem uploadLoop_attempts_every_item_witness :
    (uploadStep (Config.example "c/" "p/" "d/" ["a"] 3) SftpClient.mk
        (World.start (oneFile "p/b") [] (fun _ => false) (fun _ => false)) ⟨"a", false⟩).fs
      = (World.start (oneFile "p/b") [] (fun _ => false) (fun _ => false)).fs ∧
    (uploadLoop (Config.example "c/" "p/" "d/" ["a"] 3) SftpClient.mk
        [⟨"a", false⟩, ⟨"b", false⟩]
        (World.start (oneFile "p/b") [] (fun _ => false) (fun _ => false))).trace
      = [Event.sftpUpload "r/a" "p/a" (some (Err.wrapf Err.osOpen)),
         Event.sftpUpload "r/b" "p/b" none, Event.moveToDest "p/b" "d/b" none] :=
  ⟨((uploadLoop_attempts_every_item (Config.example "c/" "p/" "d/" ["a"] 3) SftpClient.mk
      [⟨"a", false⟩, ⟨"b", false⟩]
      (World.start (oneFile "p/b") [] (fun _ => false) (fun _ => false))).2
      (World.start (oneFile "p/b") [] (fun _ => false) (fun _ => false)) ⟨"a", false⟩
      (Err.wrapf Err.osOpen) (by decide)).1, by decide⟩

/-! ## C7: the path the upload loop opens -/

/-- C7, failing input: with the processing folder written `p`, without a
trailing separator, the scan stages `a.txt` to `pa.txt` while the upload loop
opens `p/a.txt`; the upload fails at the open and the staged file stays where
the scan put it. -/
theorem upload_opens_other_path_than_staged :
    (Config.example "c/" "p" "d/" ["a"] 3).ProcessingFolder ++ "a.txt" = "pa.txt" ∧
    srcFile (Config.example "c/" "p" "d/" ["a"] 3) ⟨"a.txt", false⟩ = "p/a.txt" ∧
    (main 4 (Config.example "c/" "p" "d/" ["a"] 3) (some [⟨"a.txt", false⟩])
        (World.start (oneFile "c/a.txt") [] (fun _ => false) (fun _ => false))).map
      (fun r => r.2.trace)
      = some [Event.moveToDest "c/a.txt" "pa.txt" none, Event.sshDial none,
          Event.sftpNewClient none,
          Event.sftpUpload "r/a.txt" "p/a.txt" (some (Err.wrapf Err.osOpen))] ∧
    (main 4 (Config.example "c/" "p" "d/" ["a"] 3) (some [⟨"a.txt", false⟩])
        (World.start (oneFile "c/a.txt") [] (fun _ => false) (fun _ => false))).map
      (fun r => (r.2.fs "pa.txt", r.2.fs "p/a.txt", r.2.remote "r/a.txt"))
      = some (some [1, 2, 3], none, none) := by
  decide

/-! ## C8: the error of closing the destination -/

/-- C8, failing input: the open, the create and the copy succeed and closing
the destination handle fails; `copyToDest` returns `nil` all the same, and
`moveToDest` goes on to delete the source. -/
theorem copyToDest_drops_close_error :
    (osOpen "c/a" (World.start (oneFile "c/a") [3] (fun _ => false) (fun _ => false))).1
      = none ∧
    (osCreate "p/a"
      (osOpen "c/a" (World.start (oneFile "c/a") [3] (fun _ => false) (fun _ => false))).2).1
      = none ∧
    (ioCopy "p/a" "c/a" (osCreate "p/a"
      (osOpen "c/a"
        (World.start (oneFile "c/a") [3] (fun _ => false) (fun _ => false))).2).2).1
      = none ∧
    (fileClose (ioCopy "p/a" "c/a" (osCreate "p/a"
      (osOpen "c/a"
        (World.start (oneFile "c/a") [3] (fun _ => false) (fun _ => false))).2).2).2).1
      = some Err.close ∧
    (copyToDest "c/a" "p/a"
      (World.start (oneFile "c/a") [3] (fun _ => false) (fun _ => false))).1 = none ∧
    (moveToDest "c/a" "p/a"
      (World.start (oneFile "c/a") [3] (fun _ => false) (fun _ => false))).1 = none ∧
    (moveToDest "c/a" "p/a"
      (World.start (oneFile "c/a") [3] (fun _ => false) (fun _ => false))).2.fs "c/a" = none := by
  decide

end SftpUploader
